import Mathlib

/-! The excel data source of octosql (`storage/excel/datasource.go`).

A shallow embedding of the checkpointed excel reader: the producer loop
(`RunWorker`, `RunWorkerInternal`, `readRecordFromFileWithInitialize`), the
offset cell (`loadOffset`, `saveOffset`) and the consumer (`Next`), together
with the root-cell parsing used when the data source is built.

Go `int` values that may be negative (`offset`, `batchSize`) are `Int`, and
the additions the code makes on them are those of a 64-bit `int`, which wrap
around (`addInt`); the root-cell coordinates, which are zero-based
positions, are `Nat`.
-/

namespace Excel

/-! ## Machine integers -/

/-- The value a 64-bit Go `int` holds for the mathematical integer `x`: `x`
itself from -2^63 to 2^63 - 1, wrapped around into that range otherwise. -/
def wrapInt (x : Int) : Int :=
  (x + 9223372036854775808) % 18446744073709551616 - 9223372036854775808

/-- The Go expression `a + b` on `int` values. -/
def addInt (a b : Int) : Int :=
  wrapInt (a + b)

/-! ## Errors, values, records and queue elements -/

/-- Go `error` values met in this package. `endOfStream`,
`newTransactionRequired` and `notFound` are the sentinels
`execution.ErrEndOfStream`, `execution.ErrNewTransactionRequired` and
`storage.ErrNotFound`; `waitForChanges` is the error from which
`execution.GetErrWaitForChanges` extracts a subscription; `msg s` is
`errors.New(s)`; `wrap m e` is `errors.Wrap(e, m)`. -/
inductive Err where
  | endOfStream
  | newTransactionRequired
  | waitForChanges
  | notFound
  | msg (s : String)
  | wrap (m : String) (cause : Err)
  deriving DecidableEq, Repr

/-- The text of `err.Error()`: a wrapped error prints its message, a colon
and the text of its cause. -/
def Err.message : Err → String
  | .endOfStream => "end of stream"
  | .newTransactionRequired => "new transaction required"
  | .waitForChanges => "wait for changes"
  | .notFound => "not found"
  | .msg s => s
  | .wrap m e => m ++ ": " ++ e.message

/-- The innermost error, `errors.Cause(err)`. -/
def Err.cause : Err → Err
  | .wrap _ e => e.cause
  | e => e

/-- Modelled from the spec: `octosql.Value`, declared outside this package;
a typed cell value, `null` being the language-level absence value, `time`
a date/time instant (kept as the text it was read from). -/
inductive Value where
  | null
  | int (i : Int)
  | str (s : String)
  | time (s : String)
  deriving DecidableEq, Repr

/-- Modelled from the spec: the per-record identifier built by
`execution.NewRecordIDFromStreamIDWithOffset(streamID, offset)`, derived from
the StreamID and the absolute row offset. -/
structure RecordID where
  streamID : String
  offset : Int
  deriving DecidableEq, Repr

/-- Modelled from the spec: `execution.Record` as built by
`execution.NewRecordFromSlice(fields, data, execution.WithID(id))`: an
ordered list of qualified column names, the values aligned to it, and a
stable identifier. -/
structure Record where
  fields : List String
  data : List Value
  id : RecordID
  deriving DecidableEq, Repr

/-- The protobuf `QueueElement` with its `Type` oneof: a record, the
end-of-stream marker, an error message, or no variant set at all. -/
inductive QueueElement where
  | record (r : Record)
  | endOfStream
  | error (message : String)
  | unset
  deriving DecidableEq, Repr

/-! ## The transactional store -/

/-- Modelled from the spec: the state of a transaction scoped by the stream
prefix: the value cell under `offsetPrefix` (empty until first set) and the
FIFO under `outputQueuePrefix`, oldest element first. -/
structure Tx where
  offsetCell : Option Int
  queue : List QueueElement
  deriving DecidableEq, Repr

/-- Modelled from the spec: `ValueState.Get` on the offset cell: a storage
failure `fault` when there is one, `storage.ErrNotFound` when the cell was
never set, the stored integer otherwise. -/
def ValueState.Get (fault : Option Err) (tx : Tx) : Except Err Int :=
  match fault with
  | some e => .error e
  | none =>
    match tx.offsetCell with
    | none => .error .notFound
    | some v => .ok v

/-- Modelled from the spec: `ValueState.Set` on the offset cell: fails with
`fault` leaving the cell as it was, or stores the value. -/
def ValueState.Set (fault : Option Err) (tx : Tx) (v : Int) : Tx × Option Err :=
  match fault with
  | some e => (tx, some e)
  | none => ({ tx with offsetCell := some v }, none)

/-- Modelled from the spec: `OutputQueue.Push`: appends the element behind
those already queued, or fails with `fault` and appends nothing. -/
def OutputQueue.Push (fault : Option Err) (tx : Tx) (e : QueueElement) : Tx × Option Err :=
  match fault with
  | some err => (tx, some err)
  | none => ({ tx with queue := tx.queue ++ [e] }, none)

/-- Modelled from the spec: `OutputQueue.Pop`: removes and returns the
oldest element; on an empty queue the caller receives the must-wait signal;
a storage failure `fault` is returned as it is. -/
def OutputQueue.Pop (fault : Option Err) (tx : Tx) : Tx × Except Err QueueElement :=
  match fault with
  | some err => (tx, .error err)
  | none =>
    match tx.queue with
    | [] => (tx, .error .waitForChanges)
    | e :: rest => ({ tx with queue := rest }, .ok e)

/-! ## The grid cursor and the reader state -/

/-- The row iterator `*excelize.Rows` of the external grid library, by its
contract in the spec (`currentRow`, `advance`): `token` is the row the
cursor stands on (none before the first advance and once exhausted), `rest`
the rows still ahead. -/
structure Rows where
  token : Option (List String)
  rest : List (List String)
  deriving DecidableEq, Repr

/-- `rows.Next()`: moves to the next row and reports whether there was one. -/
def Rows.Next (r : Rows) : Bool × Rows :=
  match r.rest with
  | [] => (false, { token := none, rest := [] })
  | x :: xs => (true, { token := some x, rest := xs })

/-- `rows.Columns()`: the cells of the current row; no cells when the cursor
stands on no row. -/
def Rows.Columns (r : Rows) : List String :=
  r.token.getD []

/-- The struct `RecordStream` (without its storage handle, which is passed
explicitly); `tableAlias` is the field `alias`. -/
structure RecordStream where
  streamID : String
  first : Bool
  filePath : String
  sheet : String
  hasHeaderRow : Bool
  timeColumnNames : List String
  tableAlias : String
  horizontalOffset : Nat
  verticalOffset : Nat
  isDone : Bool
  columnNames : List String
  timeColumns : List Bool
  rows : Rows
  offset : Int
  batchSize : Int
  deriving DecidableEq, Repr

/-- The struct `DataSource` (without its storage handle); `tableAlias` is the
field `alias`. -/
structure DataSource where
  path : String
  tableAlias : String
  hasHeaderRow : Bool
  sheet : String
  timeColumns : List String
  horizontalOffset : Nat
  verticalOffset : Nat
  batchSize : Int
  deriving DecidableEq, Repr

/-- The `RecordStream` built by `DataSource.Get` before the worker starts. -/
def DataSource.Get (ds : DataSource) (streamID : String) : RecordStream :=
  { streamID := streamID
    first := true
    filePath := ds.path
    sheet := ds.sheet
    hasHeaderRow := ds.hasHeaderRow
    timeColumnNames := ds.timeColumns
    tableAlias := ds.tableAlias
    horizontalOffset := ds.horizontalOffset
    verticalOffset := ds.verticalOffset
    isDone := false
    columnNames := []
    timeColumns := []
    rows := { token := none, rest := [] }
    offset := 0
    batchSize := ds.batchSize }

/-- The helpers of this package that `datasource.go` calls and that live in
another file: `getHeaderRow(alias, horizontalOffset, curRow)`,
`generatePlaceholders(alias, horizontalOffset, curRow)`, the method
`rs.extractRow(curRow)` (given the receiver's horizontal offset, column
names and temporal bitmap) and `VariableName.Name()`. They are parameters of
the embedding. -/
structure Helpers where
  getHeaderRow : String → Nat → List String → Except Err (List String)
  generatePlaceholders : String → Nat → List String → Except Err (List String)
  extractRow : Nat → List String → List Bool → List String → Except Err (List Value)
  name : String → String

/-- Modelled from the spec: `isRowEmpty`, which lives in another file of the
package: a row is empty when every cell is the absence value. -/
def isRowEmpty (row : List Value) : Bool :=
  row.all (fun v => v == Value.null)

/-- The function `contains`. -/
def contains (xs : List String) (x : String) : Bool :=
  match xs with
  | [] => false
  | y :: ys => if x == y then true else contains ys x

/-- Lines 308-317 of `readRecordFromFileWithInitialize`: the first row has
been seen; store the column names and build the temporal bitmap. -/
def setColumns (h : Helpers) (rs : RecordStream) (cols : List String) : RecordStream :=
  { rs with
    first := false
    columnNames := cols
    timeColumns := cols.map (fun c => contains rs.timeColumnNames (h.name c)) }

/-- Lines 320-334 of `readRecordFromFileWithInitialize`: extract the current
row, stop on an empty row, otherwise advance the cursor. -/
def extractAndAdvance (h : Helpers) (rs : RecordStream) (curRow : List String) :
    RecordStream × Except Err (List Value) :=
  match h.extractRow rs.horizontalOffset rs.columnNames rs.timeColumns curRow with
  | .error e => (rs, .error (.wrap "couldn't extract row" e))
  | .ok row =>
    if isRowEmpty row then
      ({ rs with isDone := true }, .error .endOfStream)
    else
      match rs.rows.Next with
      | (false, rows1) => ({ rs with rows := rows1, isDone := true }, .ok row)
      | (true, rows1) => ({ rs with rows := rows1 }, .ok row)

/-- The method `readRecordFromFileWithInitialize`: the reader state after the
call and the row or error it returns. -/
def readRecordFromFileWithInitialize (h : Helpers) (rs : RecordStream) :
    RecordStream × Except Err (List Value) :=
  let curRow := rs.rows.Columns
  if rs.first && rs.offset == 0 then
    if rs.hasHeaderRow then
      match h.getHeaderRow rs.tableAlias rs.horizontalOffset curRow with
      | .error e => (rs, .error (.wrap "couldn't get header row" e))
      | .ok cols =>
        match rs.rows.Next with
        | (false, rows1) => ({ rs with rows := rows1, isDone := true }, .error .endOfStream)
        | (true, rows1) =>
          extractAndAdvance h (setColumns h { rs with rows := rows1 } cols) rows1.Columns
    else
      match h.generatePlaceholders rs.tableAlias rs.horizontalOffset curRow with
      | .error e => (rs, .error (.wrap "couldn't generate placeholder headers" e))
      | .ok cols => extractAndAdvance h (setColumns h rs cols) curRow
  else
    extractAndAdvance h rs curRow

/-! ## The offset cell -/

/-- The method `loadOffset`: the reader state after the call and the error
returned, if any. -/
def loadOffset (fault : Option Err) (tx : Tx) (rs : RecordStream) :
    RecordStream × Option Err :=
  match ValueState.Get fault tx with
  | .error .notFound => ({ rs with offset := 0 }, none)
  | .error e => (rs, some (.wrap "couldn't load excel offset from state storage" e))
  | .ok v => ({ rs with offset := v }, none)

/-- The method `saveOffset`: the transaction after the call and the error
returned, if any. -/
def saveOffset (fault : Option Err) (tx : Tx) (rs : RecordStream) : Tx × Option Err :=
  match ValueState.Set fault tx rs.offset with
  | (tx1, some e) => (tx1, some (.wrap "couldn't save excel offset to state storage" e))
  | (tx1, none) => (tx1, none)

/-! ## The consumer -/

/-- What a call of `Next` does: it returns a record and an error (either may
be nil), or panics. -/
inductive NextResult where
  | ret (record : Option Record) (err : Option Err)
  | panicked (reason : String)
  deriving DecidableEq, Repr

/-- The method `RecordStream.Next`, on the caller's transaction: the
transaction after the pop and the result. -/
def RecordStream.Next (fault : Option Err) (tx : Tx) : Tx × NextResult :=
  match OutputQueue.Pop fault tx with
  | (tx1, .error e) => (tx1, .ret none (some (.wrap "couldn't pop queue element" e)))
  | (tx1, .ok (.record r)) => (tx1, .ret (some r) none)
  | (tx1, .ok .endOfStream) => (tx1, .ret none (some .endOfStream))
  | (tx1, .ok (.error m)) => (tx1, .ret none (some (.msg m)))
  | (tx1, .ok .unset) => (tx1, .panicked "invalid queue element type")

/-! ## The producer loop -/

/-- The storage failures of one commit-cycle: `push` gives the outcome of the
i-th `Push` of the cycle (absent entries succeed), `save` that of the offset
save, `commit` that of `tx.Commit()`. -/
structure CycleFaults where
  push : List (Option Err)
  save : Option Err
  commit : Option Err
  deriving DecidableEq, Repr

/-- A commit-cycle in which every storage operation succeeds. -/
def CycleFaults.ok : CycleFaults :=
  { push := [], save := none, commit := none }

/-- The first loop of `RunWorkerInternal` (lines 249-262), `todo` iterations
from index `i` on: reads rows into the batch until the batch is full, the
reader signals the end of the stream, or a read fails. -/
def readBatch (h : Helpers) : Nat → Nat → RecordStream → List Record →
    RecordStream × Except Err (List Record)
  | 0, _, rs, batch => (rs, .ok batch)
  | todo + 1, i, rs, batch =>
    match readRecordFromFileWithInitialize h rs with
    | (rs1, .error .endOfStream) => (rs1, .ok batch)
    | (rs1, .error e) => (rs1, .error (.wrap "couldn't read record from excel file" e))
    | (rs1, .ok record) =>
      readBatch h todo (i + 1) rs1
        (batch ++ [{ fields := rs1.columnNames, data := record,
                     id := { streamID := rs1.streamID, offset := addInt rs1.offset i } }])

/-- The second loop of `RunWorkerInternal` (lines 264-275), from index `i`
on: pushes the batch in order and stops at the first push that fails. -/
def pushBatch (faults : List (Option Err)) : Nat → List Record → Tx → Tx × Option Err
  | _, [], tx => (tx, none)
  | i, r :: rest, tx =>
    match OutputQueue.Push (faults.getD i none) tx (.record r) with
    | (tx1, some e) =>
      (tx1, some (.wrap ("couldn't push excel record with index " ++ toString i ++
        " in batch to output record queue") e))
    | (tx1, none) => pushBatch faults (i + 1) rest tx1

/-- The method `RunWorkerInternal` on the transaction `tx`: the reader state
and the transaction after the call, and the error returned, if any. -/
def RunWorkerInternal (h : Helpers) (f : CycleFaults) (tx : Tx) (rs : RecordStream) :
    RecordStream × Tx × Option Err :=
  if rs.isDone then
    match OutputQueue.Push (f.push.getD 0 none) tx .endOfStream with
    | (tx1, some e) =>
      (rs, tx1, some (.wrap "couldn't push excel EndOfStream to output record queue" e))
    | (tx1, none) => (rs, tx1, some .endOfStream)
  else
    match readBatch h rs.batchSize.toNat 0 rs [] with
    | (rs1, .error e) => (rs1, tx, some e)
    | (rs1, .ok batch) =>
      match pushBatch f.push 0 batch tx with
      | (tx1, some e) => (rs1, tx1, some e)
      | (tx1, none) =>
        match saveOffset f.save tx1 { rs1 with offset := addInt rs1.offset batch.length } with
        | (tx2, some e) =>
          ({ rs1 with offset := addInt rs1.offset batch.length }, tx2,
            some (.wrap "couldn't save excel offset" e))
        | (tx2, none) => ({ rs1 with offset := addInt rs1.offset batch.length }, tx2, none)

/-- What `excelize.OpenFile(rs.filePath)` followed by `file.Rows(rs.sheet)`
gives: a failure of either call, or the rows of the sheet. -/
inductive Source where
  | openFails
  | noSheet
  | sheet (grid : List (List String))
  deriving DecidableEq, Repr

/-- The loop of lines 170-175: `n` calls of `rows.Next()`, none when one of
them finds no row. -/
def skipRows : Nat → Rows → Option Rows
  | 0, r => some r
  | n + 1, r =>
    match r.Next with
    | (false, _) => none
    | (true, r1) => skipRows n r1

/-- The loop of lines 180-188: `n` calls of
`readRecordFromFileWithInitialize` whose rows are dropped, stopping at the
first error. -/
def moveIterator (h : Helpers) : Nat → RecordStream → RecordStream × Option Err
  | 0, rs => (rs, none)
  | n + 1, rs =>
    match readRecordFromFileWithInitialize h rs with
    | (rs1, .error e) => (rs1, some e)
    | (rs1, .ok _) => moveIterator h n rs1

/-- How a run of `RunWorker` stands: it returned, it ended the process
through `log.Fatalf`, or it is still looping. -/
inductive Outcome where
  | returned
  | fatal (reason : String)
  | running
  deriving DecidableEq, Repr

/-- The storage failures of a whole run: `loads` for the successive calls of
`loadOffset`, `cycles` for the successive commit-cycles; once a list is used
up, the operations succeed. -/
structure Script where
  loads : List (Option Err)
  cycles : List CycleFaults
  deriving DecidableEq, Repr

/-- A run without storage failures. -/
def Script.ok : Script :=
  { loads := [], cycles := [] }

/-- Where `RunWorker` stands: at the top of the outer loop (resync) or at
the top of the inner loop (commit-cycle). -/
inductive Phase where
  | resync
  | cycle
  deriving DecidableEq, Repr

/-- A run of `RunWorker`: its outcome, the committed store and the reader
state. -/
structure Run where
  outcome : Outcome
  store : Tx
  rs : RecordStream
  deriving DecidableEq, Repr

/-- The method `RunWorker`, one iteration of the outer or of the inner loop
per unit of `fuel`. `store` is the committed state of the stream's
transactional storage, whose queue is kept as the sequence of all committed
pushes; a transaction starts from it and replaces it on a successful commit. -/
def RunWorker (h : Helpers) (src : Source) :
    Nat → Script → Phase → Tx → RecordStream → Run
  | 0, _, _, store, rs => { outcome := .running, store := store, rs := rs }
  | fuel + 1, sc, .resync, store, rs =>
    match loadOffset (sc.loads.headD none) store rs with
    | (rs1, some _) =>
      { outcome := .fatal "couldn't reinitialize offset for excel read batch worker",
        store := store, rs := rs1 }
    | (rs1, none) =>
      match src with
      | .openFails => { outcome := .fatal "couldn't open file", store := store, rs := rs1 }
      | .noSheet => { outcome := .fatal "couldn't get sheet's rows", store := store, rs := rs1 }
      | .sheet grid =>
        match skipRows (rs1.verticalOffset + 1) { token := none, rest := grid } with
        | none =>
          { outcome := .fatal "root cell is lower than row count", store := store, rs := rs1 }
        | some rows =>
          match moveIterator h rs1.offset.toNat { rs1 with rows := rows } with
          | (rs2, some .endOfStream) => { outcome := .returned, store := store, rs := rs2 }
          | (rs2, some _) =>
            { outcome := .fatal "couldn't move excel file iterator", store := store, rs := rs2 }
          | (rs2, none) =>
            RunWorker h src fuel { sc with loads := sc.loads.tail } .cycle store rs2
  | fuel + 1, sc, .cycle, store, rs =>
    match RunWorkerInternal h (sc.cycles.headD .ok) store rs with
    | (rs1, tx1, err) =>
      if err.map Err.cause = some .newTransactionRequired then
        RunWorker h src fuel { sc with cycles := sc.cycles.tail } .cycle store rs1
      else if err.map Err.cause = some .waitForChanges then
        RunWorker h src fuel { sc with cycles := sc.cycles.tail } .cycle store rs1
      else if err = some .endOfStream then
        match (sc.cycles.headD .ok).commit with
        | some _ => RunWorker h src fuel { sc with cycles := sc.cycles.tail } .cycle store rs1
        | none => { outcome := .returned, store := tx1, rs := rs1 }
      else if err.isSome then
        RunWorker h src fuel { sc with cycles := sc.cycles.tail } .resync store rs1
      else
        match (sc.cycles.headD .ok).commit with
        | some _ => RunWorker h src fuel { sc with cycles := sc.cycles.tail } .cycle store rs1
        | none => RunWorker h src fuel { sc with cycles := sc.cycles.tail } .cycle tx1 rs1

/-! ## Root-cell parsing -/

/-- Whether the character is a decimal digit. -/
def isDigitChar (c : Char) : Bool :=
  decide ('0'.toNat ≤ c.toNat) && decide (c.toNat ≤ '9'.toNat)

/-- Whether the character is an upper-case letter A to Z. -/
def isUpperLetter (c : Char) : Bool :=
  decide ('A'.toNat ≤ c.toNat) && decide (c.toNat ≤ 'Z'.toNat)

/-- Whether the character is a letter, A to Z or a to z. -/
def isLetter (c : Char) : Bool :=
  isUpperLetter c || (decide ('a'.toNat ≤ c.toNat) && decide (c.toNat ≤ 'z'.toNat))

/-- The value of a decimal digit character. -/
def digitValue (c : Char) : Nat :=
  c.toNat - '0'.toNat

/-- The value of a column letter: A is 1, Z is 26. -/
def letterValue (c : Char) : Nat :=
  c.toNat - 'A'.toNat + 1

/-- Reads digits, most significant first, as a decimal numeral. -/
def decimalNumber (ds : List Char) : Nat :=
  ds.foldl (fun acc c => acc * 10 + digitValue c) 0

/-- Reads column letters, most significant first, as a base-26 numeral
without a zero digit. -/
def columnNumber (ls : List Char) : Nat :=
  ls.foldl (fun acc c => acc * 26 + letterValue c) 0

/-- Modelled from the spec: `getRowAndColumnFromCell`, which lives in another
file of the package: separates the leading alphabetic column letters from
the trailing row digits and returns the row text and the column text. -/
def getRowAndColumnFromCell (cell : String) : String × String :=
  (String.mk (cell.data.dropWhile isLetter), String.mk (cell.data.takeWhile isLetter))

/-- Modelled from the spec: `getCoordinatesFromCell`, which lives in another
file of the package: the zero-based (row, column) pair of a cell reference,
the letters read base-26 without a zero digit; a reference that is not
upper-case letters followed by the digits of a row number from 1 on is a
configuration error. -/
def getCoordinatesFromCell (cell : String) : Except Err (Nat × Nat) :=
  match getRowAndColumnFromCell cell with
  | (row, col) =>
    if col.data.isEmpty || !col.data.all isUpperLetter || row.data.isEmpty ||
        !row.data.all isDigitChar || decimalNumber row.data == 0 then
      .error (.msg ("invalid cell: " ++ cell))
    else
      .ok (decimalNumber row.data - 1, columnNumber col.data - 1)

/-! ## The helpers as the spec describes them -/

/-- Modelled from the spec: the cell conversion behind `extractRow`: a blank
cell is the absence value, a cell of a temporal column a date/time instant,
a cell holding a decimal numeral (with an optional minus sign) an integer,
any other cell its text. -/
def specCell (isTime : Bool) (cell : String) : Value :=
  if cell.data.isEmpty then .null
  else if isTime then .time cell
  else
    match cell.data with
    | '-' :: d :: ds =>
      if (d :: ds).all isDigitChar then .int (-(decimalNumber (d :: ds) : Int)) else .str cell
    | ds => if ds.all isDigitChar then .int (decimalNumber ds) else .str cell

/-- Modelled from the spec: `extractRow`: the typed values of the current
row aligned to the column schema, read from the root cell's column on; a
cell the row does not have is absent. -/
def specExtractRow (hoff : Nat) (cols : List String) (tcols : List Bool)
    (curRow : List String) : Except Err (List Value) :=
  .ok ((List.range cols.length).map
    (fun i => specCell (tcols.getD i false) (curRow.getD (hoff + i) "")))

/-- Modelled from the spec: `getHeaderRow`: the column names are the texts of
the header cells from the root cell's column up to the first blank cell,
qualified by the alias. -/
def specGetHeaderRow (tableAlias : String) (hoff : Nat) (curRow : List String) :
    Except Err (List String) :=
  .ok (((curRow.drop hoff).takeWhile (fun c => !c.data.isEmpty)).map
    (fun c => tableAlias ++ "." ++ c))

/-- Modelled from the spec: `generatePlaceholders`: positional names col1,
col2, ... for the width of the first data row, qualified by the alias. -/
def specGeneratePlaceholders (tableAlias : String) (hoff : Nat) (curRow : List String) :
    Except Err (List String) :=
  .ok ((List.range (curRow.drop hoff).length).map
    (fun i => tableAlias ++ ".col" ++ toString (i + 1)))

/-- Modelled from the spec: `VariableName.Name()`: the column name without
its qualifying alias. -/
def specName (v : String) : String :=
  String.mk ((v.data.dropWhile (fun c => c != '.')).drop 1)

/-- The helpers as the spec describes them. -/
def specHelpers : Helpers :=
  { getHeaderRow := specGetHeaderRow
    generatePlaceholders := specGeneratePlaceholders
    extractRow := specExtractRow
    name := specName }

/-! ## The consumer called repeatedly -/

/-- The results of successive calls of `Next` on one transaction, the i-th
call meeting the pop failure `faults[i]`. -/
def nextCalls : List (Option Err) → Tx → List NextResult
  | [], _ => []
  | f :: fs, tx => (RecordStream.Next f tx).2 :: nextCalls fs (RecordStream.Next f tx).1

/-! ## Successive reads -/

/-- The rows returned by up to `n` successive calls of
`readRecordFromFileWithInitialize`, in the order they were read, each with
the reader state its call left; the list ends at the first call that returns
an error. -/
def rowsRead (h : Helpers) : Nat → RecordStream → List (RecordStream × List Value)
  | 0, _ => []
  | n + 1, rs =>
    match readRecordFromFileWithInitialize h rs with
    | (rs1, .ok row) => (rs1, row) :: rowsRead h n rs1
    | (_, .error _) => []

/-- The records made of rows read by a commit-cycle that starts at the
offset `o`, the first of them being the `i`-th of the cycle: the `j`-th row
of the cycle is tagged with the Go sum of `o` and `j`. -/
def tagged (streamID : String) (o : Int) : Nat → List (RecordStream × List Value) → List Record
  | _, [] => []
  | i, p :: rest =>
    { fields := p.1.columnNames, data := p.2,
      id := { streamID := streamID, offset := addInt o i } } ::
      tagged streamID o (i + 1) rest

/-! ## The table a sheet holds -/

/-- The column names of the table whose root row is `rootRow`: taken from
the header row when there is one, placeholders for the width of the first
data row otherwise. -/
def columnsOf (h : Helpers) (ds : DataSource) (rootRow : List String) :
    Except Err (List String) :=
  if ds.hasHeaderRow then h.getHeaderRow ds.tableAlias ds.horizontalOffset rootRow
  else h.generatePlaceholders ds.tableAlias ds.horizontalOffset rootRow

/-- The temporal bitmap of the column names: which of them are configured
time columns. -/
def temporalOf (h : Helpers) (ds : DataSource) (cols : List String) : List Bool :=
  cols.map (fun c => contains ds.timeColumns (h.name c))

/-- The rows of the table read one by one from the first of `rows` on,
stopping before the first fully empty row or at the end of the grid. -/
def tableRows (h : Helpers) (hoff : Nat) (cols : List String) (tcols : List Bool) :
    List (List String) → Except Err (List (List Value))
  | [] => .ok []
  | r :: rest =>
    match h.extractRow hoff cols tcols r with
    | .error e => .error e
    | .ok v =>
      if isRowEmpty v then .ok []
      else
        match tableRows h hoff cols tcols rest with
        | .error e => .error e
        | .ok vs => .ok (v :: vs)

/-- The records of the rows `vals` under the column names `cols`, the first
with the offset `o` in its id, the next with `o + 1`, and so on. -/
def recordsFrom (cols : List String) (streamID : String) : Int → List (List Value) → List Record
  | _, [] => []
  | o, v :: vs =>
    { fields := cols, data := v, id := { streamID := streamID, offset := o } } ::
      recordsFrom cols streamID (o + 1) vs

/-- The record as the code tags it: the row offset of its id held in a
64-bit Go `int`. -/
def asGoInt (r : Record) : Record :=
  { r with id := { r.id with offset := wrapInt r.id.offset } }

/-- The cursor standing on the first of `cur`, the others ahead; exhausted
when `cur` is empty. -/
def cursorOn (cur : List (List String)) : Rows :=
  { token := cur.head?, rest := cur.tail }

/-- The reader state of a stream once the column names are known: the cursor
on the first of `cur`, `done` as the exhausted flag, `o` as the in-memory
offset. -/
def steady (h : Helpers) (ds : DataSource) (streamID : String) (cols : List String)
    (cur : List (List String)) (done : Bool) (o : Int) : RecordStream :=
  { ds.Get streamID with
    first := false
    columnNames := cols
    timeColumns := temporalOf h ds cols
    rows := cursorOn cur
    isDone := done
    offset := o }

/-- The reader state of a first start after the resync phase: as `Get` built
it, the cursor on the root row, the rows `below` ahead. -/
def onRootRow (ds : DataSource) (streamID : String) (rootRow : List String)
    (below : List (List String)) : RecordStream :=
  { ds.Get streamID with rows := { token := some rootRow, rest := below } }

/-! ## Example data -/

/-- A data source over a sheet with a header row, read from "A1" in
batches of `batchSize`. -/
def headerSource (batchSize : Int) : DataSource :=
  { path := "fixtures/test.xlsx", tableAlias := "t", hasHeaderRow := true, sheet := "Sheet1",
    timeColumns := [], horizontalOffset := 0, verticalOffset := 0, batchSize := batchSize }

/-- A data source over a sheet without a header row, read from "A1" in
batches of `batchSize`. -/
def plainSource (batchSize : Int) : DataSource :=
  { path := "fixtures/test.xlsx", tableAlias := "t", hasHeaderRow := false, sheet := "Sheet1",
    timeColumns := [], horizontalOffset := 0, verticalOffset := 0, batchSize := batchSize }

/-- A sheet with a header row and three data rows. -/
def peopleGrid : List (List String) :=
  [["name", "age"], ["Jan", "20"], ["Kuba", "21"], ["Wojtek", "21"]]

/-- The reader state of a stream "s" over `peopleGrid` after the resync
phase of a first start: offset 0, the cursor on the root row. -/
def freshReader (batchSize : Int) : RecordStream :=
  { (headerSource batchSize).Get "s" with
    rows := { token := some ["name", "age"],
              rest := [["Jan", "20"], ["Kuba", "21"], ["Wojtek", "21"]] } }

/-- The reader state of a stream "s" over `peopleGrid` whose column names are
known, with the cursor on the first data row and the largest 64-bit `int`
as its in-memory offset. -/
def readerAtMaxInt : RecordStream :=
  { freshReader 2 with
    first := false
    columnNames := ["t.name", "t.age"]
    timeColumns := [false, false]
    offset := 9223372036854775807
    rows := { token := some ["Jan", "20"], rest := [["Kuba", "21"], ["Wojtek", "21"]] } }

/-- The queue element of a record of `peopleGrid` for stream "s", with the
row offset `offset` in its id. -/
def personRecord (name : String) (age : Int) (offset : Int) : QueueElement :=
  .record { fields := ["t.name", "t.age"], data := [.str name, .int age],
            id := { streamID := "s", offset := offset } }

/-- The number of record elements in a queue. -/
def recordCount (q : List QueueElement) : Nat :=
  (q.filter (fun e => match e with
    | .record _ => true
    | _ => false)).length

/-- A sheet without a header row: three data rows from "A1" on. -/
def plainGrid : List (List String) :=
  [["Jan", "20"], ["Kuba", "21"], ["Wojtek", "21"]]

/-- The queue element of a record of `plainGrid` for stream "s", with the row
offset `offset` in its id. -/
def plainRecord (name : String) (age : Int) (offset : Int) : QueueElement :=
  .record { fields := ["t.col1", "t.col2"], data := [.str name, .int age],
            id := { streamID := "s", offset := offset } }

/-- A run whose first commit-cycle succeeds and whose second commit-cycle
meets a storage error on its first push. -/
def storageErrorInSecondCycle : Script :=
  { loads := [],
    cycles := [.ok, { push := [some (.msg "storage error")], save := none, commit := none }] }

/-- The store once the first commit-cycle over `plainGrid` with batches of
two is committed: offset 2 and the records of Jan and Kuba. -/
def storeAfterFirstCommit : Tx :=
  { offsetCell := some 2, queue := [plainRecord "Jan" 20 0, plainRecord "Kuba" 21 1] }

/-- The in-memory reader state of a worker over `plainGrid`, batches of two,
right after its first commit-cycle is committed. -/
def readerAfterFirstCommit : RecordStream :=
  (RunWorker specHelpers (.sheet plainGrid) 2 .ok .resync ⟨none, []⟩
    ((plainSource 2).Get "s")).rs

/-- The in-memory reader state of the same worker right after its second
commit-cycle has failed on a storage error. -/
def readerAfterFailedCycle : RecordStream :=
  (RunWorker specHelpers (.sheet plainGrid) 3 storageErrorInSecondCycle .resync ⟨none, []⟩
    ((plainSource 2).Get "s")).rs

/-! # Properties -/

/-! ## Root-cell parsing -/

theorem isLetter_of_isUpperLetter (c : Char) (h : isUpperLetter c = true) :
    isLetter c = true := by
  simp [isLetter, h]

theorem not_isLetter_of_isDigitChar (c : Char) (h : isDigitChar c = true) :
    isLetter c = false := by
  simp only [isDigitChar, isLetter, isUpperLetter, Bool.and_eq_true, decide_eq_true_eq,
    Bool.or_eq_false_iff, Bool.and_eq_false_iff, decide_eq_false_iff_not] at *
  have e0 : '0'.toNat = 48 := rfl
  have e9 : '9'.toNat = 57 := rfl
  have eA : 'A'.toNat = 65 := rfl
  have eZ : 'Z'.toNat = 90 := rfl
  have ea : 'a'.toNat = 97 := rfl
  have ez : 'z'.toNat = 122 := rfl
  omega

theorem letterValue_range (c : Char) (h : isUpperLetter c = true) :
    1 ≤ letterValue c ∧ letterValue c ≤ 26 := by
  simp only [isUpperLetter, Bool.and_eq_true, decide_eq_true_eq] at h
  have eA : 'A'.toNat = 65 := rfl
  have eZ : 'Z'.toNat = 90 := rfl
  unfold letterValue
  omega

theorem split_letters_digits (ls ds : List Char) (hl : ∀ c ∈ ls, isUpperLetter c = true)
    (hd : ∀ c ∈ ds, isDigitChar c = true) :
    (ls ++ ds).takeWhile isLetter = ls ∧ (ls ++ ds).dropWhile isLetter = ds := by
  induction ls with
  | nil =>
    cases ds with
    | nil => simp
    | cons d ds =>
      have := not_isLetter_of_isDigitChar d (hd d (by simp))
      simp [List.takeWhile, List.dropWhile, this]
  | cons l ls ih =>
    have hl1 := isLetter_of_isUpperLetter l (hl l (by simp))
    have := ih (fun c hc => hl c (by simp [hc]))
    simp [List.takeWhile, List.dropWhile, hl1, this]

theorem foldl_numeral (b : Nat) (val : Char → Nat) (cs : List Char) (acc : Nat) :
    cs.foldl (fun acc c => acc * b + val c) acc
      = Nat.ofDigits b (cs.reverse.map val) + acc * b ^ cs.length := by
  induction cs generalizing acc with
  | nil => simp
  | cons d ds ih =>
    simp only [List.foldl_cons, List.reverse_cons, List.map_append, List.map_cons, List.map_nil,
      List.length_cons]
    rw [ih, Nat.ofDigits_append]
    simp [Nat.ofDigits_singleton]
    ring

theorem decimalNumber_eq (ds : List Char) :
    decimalNumber ds = Nat.ofDigits 10 (ds.reverse.map digitValue) := by
  simpa [decimalNumber] using foldl_numeral 10 digitValue ds 0

theorem columnNumber_eq (ls : List Char) :
    columnNumber ls = Nat.ofDigits 26 (ls.reverse.map letterValue) := by
  simpa [columnNumber] using foldl_numeral 26 letterValue ls 0

/-- C9: a cell reference made of one or more upper-case letters followed by
one or more digits naming a row from 1 on is split into its digits and its
letters, and its coordinates are, without error, the row number minus one
and the column number minus one, the column number being the letters read
as a base-26 numeral whose digits A to Z stand for 1 to 26. -/
theorem getCoordinatesFromCell_letters_digits (ls ds : List Char)
    (hls : ls ≠ []) (hl : ∀ c ∈ ls, isUpperLetter c = true)
    (hds : ds ≠ []) (hd : ∀ c ∈ ds, isDigitChar c = true)
    (hrow : 1 ≤ Nat.ofDigits 10 (ds.reverse.map digitValue)) :
    getRowAndColumnFromCell (String.mk (ls ++ ds)) = (String.mk ds, String.mk ls) ∧
    getCoordinatesFromCell (String.mk (ls ++ ds))
      = .ok (Nat.ofDigits 10 (ds.reverse.map digitValue) - 1,
             Nat.ofDigits 26 (ls.reverse.map letterValue) - 1) ∧
    (∀ c ∈ ls, 1 ≤ letterValue c ∧ letterValue c ≤ 26) := by
  obtain ⟨ht, hdr⟩ := split_letters_digits ls ds hl hd
  have hsplit : getRowAndColumnFromCell (String.mk (ls ++ ds)) = (String.mk ds, String.mk ls) := by
    simp [getRowAndColumnFromCell, ht, hdr]
  refine ⟨hsplit, ?_, fun c hc => letterValue_range c (hl c hc)⟩
  have hl2 : ls.all isUpperLetter = true := by simpa [List.all_eq_true] using hl
  have hd2 : ds.all isDigitChar = true := by simpa [List.all_eq_true] using hd
  have hrow2 : decimalNumber ds ≠ 0 := by rw [decimalNumber_eq]; omega
  have hls2 : ls.isEmpty = false := by cases ls <;> simp at hls ⊢
  have hds2 : ds.isEmpty = false := by cases ds <;> simp at hds ⊢
  rw [← decimalNumber_eq, ← columnNumber_eq]
  simp [getCoordinatesFromCell, hsplit, hl2, hd2, hls2, hds2, hrow2]

/-- The references "C4" and "AA9" of the package's tests, and the split of
"ABZ1234". -/
theorem getCoordinatesFromCell_letters_digits_witness :
    (getRowAndColumnFromCell "C4" = ("4", "C") ∧ getCoordinatesFromCell "C4" = .ok (3, 2)) ∧
    (getRowAndColumnFromCell "AA9" = ("9", "AA") ∧ getCoordinatesFromCell "AA9" = .ok (8, 26)) ∧
    getRowAndColumnFromCell "ABZ1234" = ("1234", "ABZ") :=
  ⟨⟨(getCoordinatesFromCell_letters_digits ['C'] ['4'] (by decide) (by decide) (by decide)
      (by decide) (by decide)).1,
    (getCoordinatesFromCell_letters_digits ['C'] ['4'] (by decide) (by decide) (by decide)
      (by decide) (by decide)).2.1⟩,
   ⟨(getCoordinatesFromCell_letters_digits ['A', 'A'] ['9'] (by decide) (by decide) (by decide)
      (by decide) (by decide)).1,
    (getCoordinatesFromCell_letters_digits ['A', 'A'] ['9'] (by decide) (by decide) (by decide)
      (by decide) (by decide)).2.1⟩,
   (getCoordinatesFromCell_letters_digits ['A', 'B', 'Z'] ['1', '2', '3', '4'] (by decide)
      (by decide) (by decide) (by decide) (by decide)).1⟩

/-! ## The consumer -/

/-- C6: `Next` pops one element and maps its tag: a record element returns
its payload and no error; an end-of-stream element returns no record and
`ErrEndOfStream`; an error element returns no record and an error whose
message is exactly the embedded message; and when the pop fails, on an empty
queue or by a storage failure, `Next` returns no record and an error
wrapping the pop error, the queue being left as it was. -/
theorem Next_maps_tag (off : Option Int) (q : List QueueElement) (r : Record) (m : String)
    (e : Err) (tx : Tx) :
    RecordStream.Next none ⟨off, .record r :: q⟩ = (⟨off, q⟩, .ret (some r) none) ∧
    RecordStream.Next none ⟨off, .endOfStream :: q⟩
      = (⟨off, q⟩, .ret none (some .endOfStream)) ∧
    (RecordStream.Next none ⟨off, .error m :: q⟩ = (⟨off, q⟩, .ret none (some (.msg m))) ∧
      (Err.msg m).message = m) ∧
    RecordStream.Next none ⟨off, []⟩
      = (⟨off, []⟩, .ret none (some (.wrap "couldn't pop queue element" .waitForChanges))) ∧
    RecordStream.Next (some e) tx
      = (tx, .ret none (some (.wrap "couldn't pop queue element" e))) ∧
    (Err.wrap "couldn't pop queue element" e).cause = e.cause := by
  refine ⟨rfl, rfl, ⟨rfl, rfl⟩, rfl, rfl, rfl⟩

/-- C7, as the claim states it, fails: on a queue holding the end-of-stream
element alone, the first call of `Next` returns `ErrEndOfStream` and the
second call does not. -/
theorem Next_after_endOfStream_differs :
    (RecordStream.Next none ⟨none, [.endOfStream]⟩).2 = .ret none (some .endOfStream) ∧
    (RecordStream.Next none (RecordStream.Next none ⟨none, [.endOfStream]⟩).1).2
      ≠ .ret none (some .endOfStream) := by
  decide

/-- C7, amended: once `Next` has returned `ErrEndOfStream` by popping an
end-of-stream element that was the last of the queue, every later call of
`Next` on that queue returns no record, and returns an error wrapping the
pop error (the must-wait signal of the empty queue when storage does not
fail), which is never `ErrEndOfStream` itself. -/
theorem Next_after_last_endOfStream (off : Option Int) (faults : List (Option Err)) :
    (RecordStream.Next none ⟨off, [.endOfStream]⟩).2 = .ret none (some .endOfStream) ∧
    nextCalls faults (RecordStream.Next none ⟨off, [.endOfStream]⟩).1
      = faults.map (fun f =>
          NextResult.ret none (some (.wrap "couldn't pop queue element" (f.getD .waitForChanges)))) := by
  refine ⟨rfl, ?_⟩
  show nextCalls faults ⟨off, []⟩ = _
  induction faults with
  | nil => rfl
  | cons f fs ih =>
    cases f with
    | none =>
      show _ :: nextCalls fs ⟨off, []⟩ = _
      rw [ih]; rfl
    | some e =>
      show _ :: nextCalls fs ⟨off, []⟩ = _
      rw [ih]; rfl

/-! ## The offset cell -/

/-- C8: `loadOffset` sets the in-memory offset to 0 and returns no error when
the offset cell was never set; sets it to the stored integer and returns no
error when the cell holds one, so that after `saveOffset` of `k` it yields
`k`; and when reading the cell fails with an error other than
`ErrNotFound` it returns an error wrapping it and leaves the reader state as
it was. -/
theorem loadOffset_cases (q : List QueueElement) (rs : RecordStream) (k : Int) (e : Err)
    (tx : Tx) :
    loadOffset none ⟨none, q⟩ rs = ({ rs with offset := 0 }, none) ∧
    loadOffset none ⟨some k, q⟩ rs = ({ rs with offset := k }, none) ∧
    saveOffset none tx { rs with offset := k } = ({ tx with offsetCell := some k }, none) ∧
    loadOffset none (saveOffset none tx { rs with offset := k }).1 rs
      = ({ rs with offset := k }, none) ∧
    loadOffset (some e) tx rs
      = if e = .notFound then ({ rs with offset := 0 }, none)
        else (rs, some (.wrap "couldn't load excel offset from state storage" e)) := by
  refine ⟨rfl, rfl, rfl, rfl, ?_⟩
  cases e <;> simp [loadOffset, ValueState.Get]

/-! ## One commit-cycle -/

theorem extractAndAdvance_keeps (h : Helpers) (rs : RecordStream) (cur : List String) :
    (extractAndAdvance h rs cur).1.offset = rs.offset ∧
    (extractAndAdvance h rs cur).1.streamID = rs.streamID ∧
    (extractAndAdvance h rs cur).1.batchSize = rs.batchSize ∧
    (extractAndAdvance h rs cur).1.columnNames = rs.columnNames := by
  unfold extractAndAdvance
  split
  · simp
  · split
    · simp
    · split <;> simp

theorem read_keeps (h : Helpers) (rs : RecordStream) :
    (readRecordFromFileWithInitialize h rs).1.offset = rs.offset ∧
    (readRecordFromFileWithInitialize h rs).1.streamID = rs.streamID ∧
    (readRecordFromFileWithInitialize h rs).1.batchSize = rs.batchSize := by
  unfold readRecordFromFileWithInitialize
  simp only
  split
  · split
    · split
      · simp
      · split
        · simp
        · obtain ⟨h1, h2, h3, _⟩ := extractAndAdvance_keeps h
            (setColumns h { rs with rows := ‹Rows› } ‹List String›) (Rows.Columns ‹Rows›)
          exact ⟨h1, h2, h3⟩
    · split
      · simp
      · obtain ⟨h1, h2, h3, _⟩ := extractAndAdvance_keeps h
          (setColumns h rs ‹List String›) rs.rows.Columns
        exact ⟨h1, h2, h3⟩
  · obtain ⟨h1, h2, h3, _⟩ := extractAndAdvance_keeps h rs rs.rows.Columns
    exact ⟨h1, h2, h3⟩

theorem wrapInt_of_inRange (x : Int) (hlo : -9223372036854775808 ≤ x)
    (hhi : x < 9223372036854775808) : wrapInt x = x := by
  unfold wrapInt
  omega

theorem addInt_of_inRange (a b : Int) (hlo : -9223372036854775808 ≤ a + b)
    (hhi : a + b < 9223372036854775808) : addInt a b = a + b :=
  wrapInt_of_inRange (a + b) hlo hhi

theorem readBatch_ok (h : Helpers) (todo i : Nat) (rs : RecordStream) (batch b : List Record)
    (hb : (readBatch h todo i rs batch).2 = .ok b) :
    b = batch ++ tagged rs.streamID rs.offset i (rowsRead h todo rs) ∧
    (readBatch h todo i rs batch).1.offset = rs.offset ∧
    (readBatch h todo i rs batch).1.streamID = rs.streamID := by
  induction todo generalizing i rs batch with
  | zero =>
    simp only [readBatch] at hb ⊢
    cases hb
    simp [rowsRead, tagged]
  | succ todo ih =>
    obtain ⟨k1, k2, _⟩ := read_keeps h rs
    rw [readBatch] at hb ⊢
    rw [rowsRead]
    generalize readRecordFromFileWithInitialize h rs = res at *
    obtain ⟨rs1, r⟩ := res
    cases r with
    | error e =>
      cases e <;> simp at hb
      subst hb
      simp only at k1 k2
      simp [tagged, k1, k2]
    | ok row =>
      simp only at hb k1 k2 ⊢
      obtain ⟨e1, e2, e3⟩ := ih (i + 1) rs1 _ hb
      refine ⟨?_, by rw [e2, k1], by rw [e3, k2]⟩
      rw [e1, k1, k2]
      simp [tagged]

theorem rowsRead_length_le (h : Helpers) (n : Nat) (rs : RecordStream) :
    (rowsRead h n rs).length ≤ n := by
  induction n generalizing rs with
  | zero => simp [rowsRead]
  | succ n ih =>
    rw [rowsRead]
    split
    · simp only [List.length_cons]
      have := ih ‹RecordStream›
      omega
    · simp

theorem pushBatch_ok (faults : List (Option Err)) (i : Nat) (batch : List Record) (tx : Tx)
    (hp : (pushBatch faults i batch tx).2 = none) :
    (pushBatch faults i batch tx).1
      = { tx with queue := tx.queue ++ batch.map QueueElement.record } := by
  induction batch generalizing i tx with
  | nil => simp [pushBatch]
  | cons r rest ih =>
    rw [pushBatch] at hp ⊢
    cases hf : faults.getD i none with
    | some e =>
      rw [hf] at hp
      simp [OutputQueue.Push] at hp
    | none =>
      rw [hf] at hp
      simp only [OutputQueue.Push] at hp ⊢
      rw [ih _ _ hp]
      simp

theorem pushBatch_no_faults (i : Nat) (batch : List Record) (tx : Tx) :
    (pushBatch [] i batch tx).2 = none := by
  induction batch generalizing i tx with
  | nil => simp [pushBatch]
  | cons r rest ih =>
    rw [pushBatch]
    simp only [List.getD_nil, OutputQueue.Push]
    exact ih _ _

theorem tagged_getElem? (sid : String) (o : Int) (i : Nat)
    (l : List (RecordStream × List Value)) (j : Nat) (p : RecordStream × List Value)
    (hp : l[j]? = some p) :
    (tagged sid o i l)[j]?
      = some (Record.mk p.1.columnNames p.2 (RecordID.mk sid (addInt o ((i + j : Nat) : Int)))) := by
  induction l generalizing i j with
  | nil => simp at hp
  | cons q rest ih =>
    cases j with
    | zero =>
      simp only [List.getElem?_cons_zero, Option.some.injEq] at hp
      subst hp
      simp [tagged]
    | succ j =>
      simp only [List.getElem?_cons_succ] at hp
      simp only [tagged, List.getElem?_cons_succ]
      rw [ih (i + 1) j hp, show i + 1 + j = i + (j + 1) by omega]

theorem tagged_length (sid : String) (o : Int) (i : Nat)
    (l : List (RecordStream × List Value)) : (tagged sid o i l).length = l.length := by
  induction l generalizing i with
  | nil => rfl
  | cons q rest ih => simp [tagged, ih]

theorem RunWorkerInternal_ok (h : Helpers) (f : CycleFaults) (tx : Tx) (rs : RecordStream)
    (hdone : rs.isDone = false) (hok : (RunWorkerInternal h f tx rs).2.2 = none) :
    ∃ rs1 batch, readBatch h rs.batchSize.toNat 0 rs [] = (rs1, .ok batch) ∧
      RunWorkerInternal h f tx rs
        = ({ rs1 with offset := addInt rs1.offset batch.length },
           { offsetCell := some (addInt rs1.offset batch.length),
             queue := tx.queue ++ batch.map QueueElement.record }, none) := by
  unfold RunWorkerInternal at hok ⊢
  rw [if_neg (by simp [hdone])] at hok ⊢
  rcases hrb : readBatch h rs.batchSize.toNat 0 rs [] with ⟨rs1, e | batch⟩
  · rw [hrb] at hok
    simp at hok
  · rw [hrb] at hok
    simp only at hok ⊢
    have hp := pushBatch_ok f.push 0 batch tx
    rcases hpb : pushBatch f.push 0 batch tx with ⟨tx1, _ | e⟩
    · rw [hpb] at hp hok
      simp only at hok ⊢
      have hp1 := hp rfl
      simp only at hp1
      subst hp1
      cases hs : f.save with
      | some e => rw [hs] at hok; simp [saveOffset, ValueState.Set] at hok
      | none => exact ⟨rs1, batch, rfl, by simp [saveOffset, ValueState.Set]⟩
    · rw [hpb] at hok
      simp at hok

/-- C10, as the claim states it, fails for a negative `batchSize`: the call
returns no error and pushes no record, and 0 is not at most `batchSize`. It
also fails at the largest 64-bit offset: the call reads two rows and
returns no error, the second record carries the id offset -2^63, and the
in-memory and the saved offset are -2^63 + 1, not the offset plus 2. -/
theorem RunWorkerInternal_negative_batchSize :
    ((freshReader (-1)).isDone = false ∧
     (RunWorkerInternal specHelpers .ok ⟨none, []⟩ (freshReader (-1))).2.2 = none ∧
     (RunWorkerInternal specHelpers .ok ⟨none, []⟩ (freshReader (-1))).2.1.queue = [] ∧
     ¬ (((RunWorkerInternal specHelpers .ok ⟨none, []⟩ (freshReader (-1))).2.1.queue.length : Int)
         ≤ (freshReader (-1)).batchSize)) ∧
    (readerAtMaxInt.isDone = false ∧
     (RunWorkerInternal specHelpers .ok ⟨none, []⟩ readerAtMaxInt).2.2 = none ∧
     (RunWorkerInternal specHelpers .ok ⟨none, []⟩ readerAtMaxInt).2.1.queue
       = [personRecord "Jan" 20 9223372036854775807,
          personRecord "Kuba" 21 (-9223372036854775808)] ∧
     (RunWorkerInternal specHelpers .ok ⟨none, []⟩ readerAtMaxInt).1.offset
       = -9223372036854775807 ∧
     (RunWorkerInternal specHelpers .ok ⟨none, []⟩ readerAtMaxInt).2.1.offsetCell
       = some (-9223372036854775807) ∧
     (RunWorkerInternal specHelpers .ok ⟨none, []⟩ readerAtMaxInt).2.1.offsetCell
       ≠ some (readerAtMaxInt.offset + 2)) := by
  decide

/-- C10, amended: for every producer state with `isDone` false and in-memory
offset `o`, a call of `RunWorkerInternal` that returns no error (every read,
every push and the offset save succeeded) pushes, behind what the queue
held, the `n` rows read by the successive calls of
`readRecordFromFileWithInitialize`, in the order they were read, where
`0 ≤ n ≤ max batchSize 0`; the j-th carries the record id made of the
StreamID and the Go sum of `o` and `j`; no end-of-stream element is pushed;
and the in-memory offset and the saved offset are both the Go sum of `o` and
`n`. The Go sums are those of a 64-bit `int`: when `o` is at least -2^63
and `o + n` is below 2^63 they are `o + j` and `o + n`. -/
theorem RunWorkerInternal_batch (h : Helpers) (f : CycleFaults) (tx : Tx) (rs : RecordStream)
    (hdone : rs.isDone = false) (hok : (RunWorkerInternal h f tx rs).2.2 = none) :
    ((rowsRead h rs.batchSize.toNat rs).length : Int) ≤ max rs.batchSize 0 ∧
    (RunWorkerInternal h f tx rs).2.1.queue
      = tx.queue ++ (tagged rs.streamID rs.offset 0 (rowsRead h rs.batchSize.toNat rs)).map
          QueueElement.record ∧
    (∀ (j : Nat) (p : RecordStream × List Value),
      (rowsRead h rs.batchSize.toNat rs)[j]? = some p →
      (tagged rs.streamID rs.offset 0 (rowsRead h rs.batchSize.toNat rs))[j]?
        = some (Record.mk p.1.columnNames p.2 (RecordID.mk rs.streamID (addInt rs.offset j)))) ∧
    QueueElement.endOfStream ∉
      (tagged rs.streamID rs.offset 0 (rowsRead h rs.batchSize.toNat rs)).map
        QueueElement.record ∧
    (RunWorkerInternal h f tx rs).1.offset
      = addInt rs.offset (rowsRead h rs.batchSize.toNat rs).length ∧
    (RunWorkerInternal h f tx rs).2.1.offsetCell
      = some (addInt rs.offset (rowsRead h rs.batchSize.toNat rs).length) ∧
    (-9223372036854775808 ≤ rs.offset →
      rs.offset + (rowsRead h rs.batchSize.toNat rs).length < 9223372036854775808 →
      addInt rs.offset (rowsRead h rs.batchSize.toNat rs).length
        = rs.offset + (rowsRead h rs.batchSize.toNat rs).length ∧
      ∀ j : Nat, j ≤ (rowsRead h rs.batchSize.toNat rs).length →
        addInt rs.offset j = rs.offset + j) := by
  have hlen := rowsRead_length_le h rs.batchSize.toNat rs
  obtain ⟨rs1, batch, hrb, hres⟩ := RunWorkerInternal_ok h f tx rs hdone hok
  obtain ⟨e1, e2, _⟩ := readBatch_ok h rs.batchSize.toNat 0 rs [] batch (by rw [hrb])
  rw [hrb] at e2
  simp only [List.nil_append] at e1 e2
  refine ⟨by omega, ?_, ?_, by simp, ?_, ?_, ?_⟩
  · rw [hres, e1]
  · intro j p hp
    have := tagged_getElem? rs.streamID rs.offset 0 _ j p hp
    simpa using this
  · rw [hres]; simp [e1, e2, tagged_length]
  · rw [hres]; simp [e1, e2, tagged_length]
  · intro hlo hhi
    refine ⟨addInt_of_inRange _ _ (by omega) hhi, fun j hj => ?_⟩
    exact addInt_of_inRange _ _ (by omega) (by omega)

/-- A first commit-cycle over `peopleGrid` with batches of two: two rows are
read from the offset 0 and the saved offset is 2. -/
theorem RunWorkerInternal_batch_witness :
    (RunWorkerInternal specHelpers .ok ⟨none, []⟩ (freshReader 2)).2.1.offsetCell
      = some (addInt (freshReader 2).offset
          (rowsRead specHelpers (freshReader 2).batchSize.toNat (freshReader 2)).length) ∧
    (RunWorkerInternal specHelpers .ok ⟨none, []⟩ (freshReader 2)).2.1.offsetCell = some 2 :=
  ⟨(RunWorkerInternal_batch specHelpers .ok ⟨none, []⟩ (freshReader 2) (by decide)
    (by decide)).2.2.2.2.2.1, by decide⟩

/-! ## A run without faults -/

theorem cursorOn_Next (cur : List (List String)) :
    (cursorOn cur).Next = (!cur.tail.isEmpty, cursorOn cur.tail) := by
  unfold cursorOn Rows.Next
  cases cur.tail <;> simp

theorem tableRows_nil_vals (h : Helpers) (hoff : Nat) (cols : List String) (tcols : List Bool)
    (vals : List (List Value)) (ht : tableRows h hoff cols tcols [] = .ok vals) : vals = [] := by
  simp only [tableRows, Except.ok.injEq] at ht
  exact ht.symm

theorem tableRows_length_le (h : Helpers) (hoff : Nat) (cols : List String)
    (tcols : List Bool) (rows : List (List String)) (vals : List (List Value))
    (ht : tableRows h hoff cols tcols rows = .ok vals) : vals.length ≤ rows.length := by
  induction rows generalizing vals with
  | nil =>
    rw [tableRows_nil_vals h hoff cols tcols vals ht]
    simp
  | cons r rest ih =>
    rw [tableRows] at ht
    cases hr : h.extractRow hoff cols tcols r with
    | error e => rw [hr] at ht; simp at ht
    | ok v =>
      rw [hr] at ht
      simp only at ht
      cases hv : isRowEmpty v with
      | true =>
        rw [hv] at ht
        simp only [if_true, Except.ok.injEq] at ht
        subst ht
        simp
      | false =>
        rw [hv] at ht
        simp only [Bool.false_eq_true, if_false] at ht
        cases hrest : tableRows h hoff cols tcols rest with
        | error e => rw [hrest] at ht; simp at ht
        | ok vs =>
          rw [hrest] at ht
          simp only [Except.ok.injEq] at ht
          subst ht
          have := ih vs hrest
          simp only [List.length_cons]
          omega

theorem read_steady_nil (h : Helpers) (ds : DataSource) (sid : String) (cols : List String)
    (done : Bool) (o : Int) (v0 : List Value)
    (hend : h.extractRow ds.horizontalOffset cols (temporalOf h ds cols) [] = .ok v0)
    (hv0 : isRowEmpty v0 = true) :
    readRecordFromFileWithInitialize h (steady h ds sid cols [] done o)
      = (steady h ds sid cols [] true o, .error .endOfStream) := by
  simp [readRecordFromFileWithInitialize, steady, DataSource.Get, extractAndAdvance, cursorOn,
    Rows.Columns, hend, hv0]

theorem read_steady_empty (h : Helpers) (ds : DataSource) (sid : String) (cols : List String)
    (r : List String) (rest : List (List String)) (done : Bool) (o : Int) (v : List Value)
    (hr : h.extractRow ds.horizontalOffset cols (temporalOf h ds cols) r = .ok v)
    (hv : isRowEmpty v = true) :
    readRecordFromFileWithInitialize h (steady h ds sid cols (r :: rest) done o)
      = (steady h ds sid cols (r :: rest) true o, .error .endOfStream) := by
  simp [readRecordFromFileWithInitialize, steady, DataSource.Get, extractAndAdvance, cursorOn,
    Rows.Columns, hr, hv]

theorem read_steady_row (h : Helpers) (ds : DataSource) (sid : String) (cols : List String)
    (r : List String) (rest : List (List String)) (done : Bool) (o : Int) (v : List Value)
    (hr : h.extractRow ds.horizontalOffset cols (temporalOf h ds cols) r = .ok v)
    (hv : isRowEmpty v = false) :
    readRecordFromFileWithInitialize h (steady h ds sid cols (r :: rest) done o)
      = (steady h ds sid cols rest (done || rest.isEmpty) o, .ok v) := by
  cases rest with
  | nil =>
    simp [readRecordFromFileWithInitialize, steady, DataSource.Get, extractAndAdvance, cursorOn,
      Rows.Columns, Rows.Next, hr, hv]
  | cons x xs =>
    simp [readRecordFromFileWithInitialize, steady, DataSource.Get, extractAndAdvance, cursorOn,
      Rows.Columns, Rows.Next, hr, hv]

theorem addInt_wrapInt (a b : Int) : addInt (wrapInt a) b = wrapInt (a + b) := by
  unfold addInt wrapInt
  omega

theorem readBatch_steady (h : Helpers) (ds : DataSource) (sid : String) (cols : List String)
    (o : Int) (v0 : List Value)
    (hend : h.extractRow ds.horizontalOffset cols (temporalOf h ds cols) [] = .ok v0)
    (hv0 : isRowEmpty v0 = true)
    (todo i : Nat) (cur : List (List String)) (done : Bool) (batch : List Record)
    (vals : List (List Value))
    (ht : tableRows h ds.horizontalOffset cols (temporalOf h ds cols) cur = .ok vals)
    (hdone : done = true → cur = []) :
    ∃ cur1 done1,
      readBatch h todo i (steady h ds sid cols cur done (wrapInt o)) batch
        = (steady h ds sid cols cur1 done1 (wrapInt o),
           .ok (batch ++ (recordsFrom cols sid (o + i) (vals.take todo)).map asGoInt)) ∧
      tableRows h ds.horizontalOffset cols (temporalOf h ds cols) cur1 = .ok (vals.drop todo) ∧
      (done1 = true → vals.drop todo = []) ∧
      (done1 = false → todo ≤ vals.length) := by
  induction todo generalizing i cur done batch vals with
  | zero =>
    refine ⟨cur, done, by simp [readBatch, recordsFrom], by simpa using ht, ?_, by simp⟩
    intro hd
    rw [hdone hd] at ht
    simpa using tableRows_nil_vals h _ _ _ _ ht
  | succ todo ih =>
    cases cur with
    | nil =>
      have hvals := tableRows_nil_vals h _ _ _ _ ht
      subst hvals
      refine ⟨[], true, ?_, by simpa using ht, by simp, by simp⟩
      rw [readBatch, read_steady_nil h ds sid cols done (wrapInt o) v0 hend hv0]
      simp [recordsFrom]
    | cons r rest =>
      rw [tableRows] at ht
      cases hr : h.extractRow ds.horizontalOffset cols (temporalOf h ds cols) r with
      | error e => rw [hr] at ht; simp at ht
      | ok v =>
        rw [hr] at ht
        simp only at ht
        cases hv : isRowEmpty v with
        | true =>
          rw [hv] at ht
          simp only [if_true, Except.ok.injEq] at ht
          subst ht
          refine ⟨r :: rest, true, ?_, ?_, by simp, by simp⟩
          · rw [readBatch, read_steady_empty h ds sid cols r rest done (wrapInt o) v hr hv]
            simp [recordsFrom]
          · rw [tableRows, hr]
            simp [hv]
        | false =>
          rw [hv] at ht
          simp only [Bool.false_eq_true, if_false] at ht
          cases hrest : tableRows h ds.horizontalOffset cols (temporalOf h ds cols) rest with
          | error e => rw [hrest] at ht; simp at ht
          | ok vs =>
            rw [hrest] at ht
            simp only [Except.ok.injEq] at ht
            subst ht
            have hd : done = false := by
              cases done with
              | false => rfl
              | true => simpa using hdone rfl
            obtain ⟨cur1, done1, e1, e2, e3, e4⟩ :=
              ih (i + 1) rest (done || rest.isEmpty)
                (batch ++ [asGoInt (Record.mk cols v (RecordID.mk sid (o + i)))]) vs hrest
                (by subst hd; simp)
            refine ⟨cur1, done1, ?_, by simpa using e2, by simpa using e3, ?_⟩
            · rw [readBatch, read_steady_row h ds sid cols r rest done (wrapInt o) v hr hv]
              simp only
              have hf : (steady h ds sid cols rest (done || rest.isEmpty)
                  (wrapInt o)).columnNames = cols := rfl
              have hs : (steady h ds sid cols rest (done || rest.isEmpty)
                  (wrapInt o)).streamID = sid := rfl
              have ho : (steady h ds sid cols rest (done || rest.isEmpty)
                  (wrapInt o)).offset = wrapInt o := rfl
              have hrec : Record.mk cols v (RecordID.mk sid (wrapInt (o + i)))
                  = asGoInt (Record.mk cols v (RecordID.mk sid (o + i))) := rfl
              rw [hf, hs, ho, addInt_wrapInt, hrec, e1]
              simp [recordsFrom, add_assoc]
            · intro hd1
              have := e4 hd1
              simp only [List.length_cons]
              omega

theorem recordsFrom_length (cols : List String) (sid : String) (o : Int)
    (vals : List (List Value)) : (recordsFrom cols sid o vals).length = vals.length := by
  induction vals generalizing o with
  | nil => rfl
  | cons v vs ih => simp [recordsFrom, ih]

theorem recordsFrom_append (cols : List String) (sid : String) (o : Int)
    (xs ys : List (List Value)) :
    recordsFrom cols sid o (xs ++ ys)
      = recordsFrom cols sid o xs ++ recordsFrom cols sid (o + xs.length) ys := by
  induction xs generalizing o with
  | nil => simp [recordsFrom]
  | cons x xs ih =>
    have e : o + 1 + (xs.length : Int) = o + ((xs.length + 1 : Nat) : Int) := by
      push_cast; omega
    rw [List.cons_append, recordsFrom, recordsFrom, ih, e, List.length_cons, List.cons_append]

theorem recordsFrom_asGoInt (cols : List String) (sid : String) (o : Int)
    (vals : List (List Value)) (hlo : -9223372036854775808 ≤ o)
    (hhi : o + vals.length ≤ 9223372036854775808) :
    (recordsFrom cols sid o vals).map asGoInt = recordsFrom cols sid o vals := by
  induction vals generalizing o with
  | nil => rfl
  | cons v vs ih =>
    simp only [List.length_cons] at hhi
    push_cast at hhi
    have hw : wrapInt o = o := wrapInt_of_inRange o hlo (by omega)
    rw [recordsFrom, List.map_cons, ih (o + 1) (by omega) (by omega)]
    simp [asGoInt, hw]

theorem cycle_steady (h : Helpers) (ds : DataSource) (sid : String) (cols : List String)
    (o : Int) (v0 : List Value)
    (hend : h.extractRow ds.horizontalOffset cols (temporalOf h ds cols) [] = .ok v0)
    (hv0 : isRowEmpty v0 = true)
    (cur : List (List String)) (vals : List (List Value)) (tx : Tx)
    (ht : tableRows h ds.horizontalOffset cols (temporalOf h ds cols) cur = .ok vals) :
    ∃ cur1 done1,
      RunWorkerInternal h .ok tx (steady h ds sid cols cur false (wrapInt o))
        = (steady h ds sid cols cur1 done1 (wrapInt (o + (vals.take ds.batchSize.toNat).length)),
           { offsetCell := some (wrapInt (o + (vals.take ds.batchSize.toNat).length)),
             queue := tx.queue ++
               ((recordsFrom cols sid o (vals.take ds.batchSize.toNat)).map asGoInt).map
                 QueueElement.record },
           none) ∧
      tableRows h ds.horizontalOffset cols (temporalOf h ds cols) cur1
        = .ok (vals.drop ds.batchSize.toNat) ∧
      (done1 = true → vals.drop ds.batchSize.toNat = []) ∧
      (done1 = false → ds.batchSize.toNat ≤ vals.length) := by
  obtain ⟨cur1, done1, e1, e2, e3, e4⟩ :=
    readBatch_steady h ds sid cols o v0 hend hv0 ds.batchSize.toNat 0 cur false [] vals ht
      (by simp)
  refine ⟨cur1, done1, ?_, e2, e3, e4⟩
  have hb : (steady h ds sid cols cur false (wrapInt o)).batchSize = ds.batchSize := rfl
  have hd : (steady h ds sid cols cur false (wrapInt o)).isDone = false := rfl
  unfold RunWorkerInternal
  rw [if_neg (by simp [hd]), hb, e1]
  simp only [Nat.cast_zero, add_zero, List.nil_append]
  have hp := pushBatch_ok [] 0
    ((recordsFrom cols sid o (vals.take ds.batchSize.toNat)).map asGoInt) tx
    (pushBatch_no_faults _ _ _)
  have hp2 := pushBatch_no_faults 0
    ((recordsFrom cols sid o (vals.take ds.batchSize.toNat)).map asGoInt) tx
  show (match pushBatch [] 0
      ((recordsFrom cols sid o (vals.take ds.batchSize.toNat)).map asGoInt) tx with
    | (tx1, some e) => _
    | (tx1, none) => _) = _
  rcases hpb : pushBatch [] 0
      ((recordsFrom cols sid o (vals.take ds.batchSize.toNat)).map asGoInt) tx
    with ⟨tx1, _ | e⟩
  · rw [hpb] at hp
    simp only at hp
    subst hp
    have ho : (steady h ds sid cols cur1 done1 (wrapInt o)).offset = wrapInt o := rfl
    rw [List.length_map, recordsFrom_length, ho, addInt_wrapInt]
    simp [saveOffset, ValueState.Set, CycleFaults.ok, steady]
  · rw [hpb] at hp2
    simp at hp2

theorem run_done (h : Helpers) (src : Source) (fuel : Nat) (tx : Tx) (rs : RecordStream)
    (hd : rs.isDone = true) :
    RunWorker h src (fuel + 1) .ok .cycle tx rs
      = { outcome := .returned, store := { tx with queue := tx.queue ++ [.endOfStream] },
          rs := rs } := by
  rw [RunWorker]
  simp [Script.ok, CycleFaults.ok, RunWorkerInternal, hd, OutputQueue.Push, Err.cause]

theorem run_steady (h : Helpers) (ds : DataSource) (sid : String) (cols : List String)
    (v0 : List Value) (src : Source)
    (hend : h.extractRow ds.horizontalOffset cols (temporalOf h ds cols) [] = .ok v0)
    (hv0 : isRowEmpty v0 = true) (hbs : 1 ≤ ds.batchSize) (n : Nat) :
    ∀ (vals : List (List Value)) (cur : List (List String)) (o : Int) (tx : Tx) (fuel : Nat),
      vals.length ≤ n →
      tableRows h ds.horizontalOffset cols (temporalOf h ds cols) cur = .ok vals →
      n + 2 ≤ fuel →
      (RunWorker h src fuel .ok .cycle tx (steady h ds sid cols cur false (wrapInt o))).outcome
        = .returned ∧
      (RunWorker h src fuel .ok .cycle tx (steady h ds sid cols cur false (wrapInt o))).store
        = { offsetCell := some (wrapInt (o + vals.length)),
            queue := tx.queue ++
              ((recordsFrom cols sid o vals).map asGoInt).map QueueElement.record ++
              [.endOfStream] } := by
  induction n with
  | zero =>
    intro vals cur o tx fuel hn ht hf
    have hvals : vals = [] := List.length_eq_zero.mp (Nat.le_zero.mp hn)
    subst hvals
    obtain ⟨cur1, done1, e1, _, _, e4⟩ := cycle_steady h ds sid cols o v0 hend hv0 cur [] tx ht
    have hd1 : done1 = true := by
      cases done1 with
      | true => rfl
      | false =>
        have := e4 rfl
        simp only [List.length_nil] at this
        omega
    subst hd1
    obtain ⟨f2, rfl⟩ : ∃ f2, fuel = f2 + 2 := ⟨fuel - 2, by omega⟩
    rw [RunWorker]
    simp only [Script.ok, List.headD_nil, List.tail_nil]
    rw [e1]
    simp only [Option.map_none', reduceCtorEq, if_false, Option.isSome_none, Bool.false_eq_true,
      CycleFaults.ok]
    have := run_done h src f2
      { offsetCell := some (wrapInt
          (o + ((List.take ds.batchSize.toNat ([] : List (List Value))).length : Int))),
        queue := tx.queue ++
          ((recordsFrom cols sid o (List.take ds.batchSize.toNat [])).map asGoInt).map
            QueueElement.record }
      (steady h ds sid cols cur1 true (wrapInt
        (o + ((List.take ds.batchSize.toNat ([] : List (List Value))).length : Int)))) rfl
    simp only [Script.ok] at this
    rw [this]
    simp [recordsFrom]
  | succ n ih =>
    intro vals cur o tx fuel hn ht hf
    obtain ⟨cur1, done1, e1, e2, e3, e4⟩ :=
      cycle_steady h ds sid cols o v0 hend hv0 cur vals tx ht
    obtain ⟨f2, rfl⟩ : ∃ f2, fuel = f2 + 2 := ⟨fuel - 2, by omega⟩
    rw [RunWorker]
    simp only [Script.ok, List.headD_nil, List.tail_nil]
    rw [e1]
    simp only [Option.map_none', reduceCtorEq, if_false, Option.isSome_none, Bool.false_eq_true,
      CycleFaults.ok]
    cases done1 with
    | true =>
      have hdrop := e3 rfl
      have htake : vals.take ds.batchSize.toNat = vals := by
        have := List.take_append_drop ds.batchSize.toNat vals
        rw [hdrop, List.append_nil] at this
        exact this
      have := run_done h src f2
        { offsetCell := some (wrapInt
            (o + ((List.take ds.batchSize.toNat vals).length : Int))),
          queue := tx.queue ++
            ((recordsFrom cols sid o (List.take ds.batchSize.toNat vals)).map asGoInt).map
              QueueElement.record }
        (steady h ds sid cols cur1 true
          (wrapInt (o + ((List.take ds.batchSize.toNat vals).length : Int))))
        rfl
      simp only [Script.ok] at this
      rw [this, htake]
      simp
    | false =>
      have hk := e4 rfl
      have hk1 : 1 ≤ ds.batchSize.toNat := by omega
      have hlen : (vals.drop ds.batchSize.toNat).length ≤ n := by
        rw [List.length_drop]; omega
      have htl : (vals.take ds.batchSize.toNat).length = ds.batchSize.toNat := by
        rw [List.length_take]; omega
      obtain ⟨r1, r2⟩ := ih (vals.drop ds.batchSize.toNat) cur1
        (o + ((vals.take ds.batchSize.toNat).length : Int))
        { offsetCell := some (wrapInt (o + ((vals.take ds.batchSize.toNat).length : Int))),
          queue := tx.queue ++
            ((recordsFrom cols sid o (vals.take ds.batchSize.toNat)).map asGoInt).map
              QueueElement.record }
        (f2 + 1) hlen e2 (by omega)
      simp only [Script.ok] at r1 r2
      refine ⟨r1, ?_⟩
      rw [r2]
      have hsplit := recordsFrom_append cols sid o (vals.take ds.batchSize.toNat)
        (vals.drop ds.batchSize.toNat)
      rw [List.take_append_drop] at hsplit
      rw [hsplit]
      simp only [List.length_drop, List.map_append, List.append_assoc, Tx.mk.injEq,
        Option.some.injEq, and_true]
      rw [htl]
      congr 1
      omega

theorem skipRows_root (v : Nat) (grid : List (List String)) (tok : Option (List String))
    (rootRow : List String) (below : List (List String))
    (hroot : grid.drop v = rootRow :: below) :
    skipRows (v + 1) { token := tok, rest := grid } = some { token := some rootRow, rest := below } := by
  induction v generalizing grid tok with
  | zero =>
    simp only [List.drop_zero] at hroot
    subst hroot
    simp [skipRows, Rows.Next]
  | succ v ih =>
    cases grid with
    | nil => simp at hroot
    | cons x xs =>
      simp only [List.drop_succ_cons] at hroot
      rw [skipRows]
      simp only [Rows.Next]
      exact ih xs (some x) hroot

/-- The reader state a first start reaches after the resync phase: offset 0
and the cursor on the root row. -/
theorem resync_first_start (h : Helpers) (ds : DataSource) (sid : String)
    (grid : List (List String)) (rootRow : List String) (below : List (List String))
    (hroot : grid.drop ds.verticalOffset = rootRow :: below) (fuel : Nat) (q : List QueueElement) :
    RunWorker h (.sheet grid) (fuel + 1) .ok .resync ⟨none, q⟩ (ds.Get sid)
      = RunWorker h (.sheet grid) fuel .ok .cycle ⟨none, q⟩ (onRootRow ds sid rootRow below) := by
  rw [RunWorker]
  have hv : (ds.Get sid).verticalOffset = ds.verticalOffset := rfl
  simp only [Script.ok, List.headD_nil, List.tail_nil, loadOffset, ValueState.Get]
  rw [hv, skipRows_root ds.verticalOffset grid none rootRow below hroot]
  simp [moveIterator, DataSource.Get, onRootRow]

theorem first_read_eq (h : Helpers) (ds : DataSource) (sid : String)
    (rootRow : List String) (below : List (List String)) (cols : List String)
    (hcols : columnsOf h ds rootRow = .ok cols)
    (hne : ds.hasHeaderRow = true → below ≠ []) :
    readRecordFromFileWithInitialize h (onRootRow ds sid rootRow below)
      = readRecordFromFileWithInitialize h
          (steady h ds sid cols (if ds.hasHeaderRow then below else rootRow :: below) false 0) := by
  unfold columnsOf at hcols
  cases hh : ds.hasHeaderRow with
  | true =>
    rw [hh] at hcols
    simp only [if_true] at hcols
    cases below with
    | nil => exact absurd rfl (hne hh)
    | cons b bs =>
      simp [readRecordFromFileWithInitialize, onRootRow, DataSource.Get, hh, hcols, Rows.Columns,
        Rows.Next, steady, setColumns, cursorOn, temporalOf]
  | false =>
    rw [hh] at hcols
    simp only [Bool.false_eq_true, if_false] at hcols
    simp [readRecordFromFileWithInitialize, onRootRow, DataSource.Get, hh, hcols, Rows.Columns,
      steady, setColumns, cursorOn, temporalOf]

theorem first_cycle_eq (h : Helpers) (ds : DataSource) (sid : String) (src : Source)
    (rootRow : List String) (below : List (List String)) (cols : List String)
    (hcols : columnsOf h ds rootRow = .ok cols)
    (hne : ds.hasHeaderRow = true → below ≠ []) (hbs : 1 ≤ ds.batchSize)
    (fuel : Nat) (sc : Script) (tx : Tx) :
    RunWorker h src (fuel + 1) sc .cycle tx (onRootRow ds sid rootRow below)
      = RunWorker h src (fuel + 1) sc .cycle tx
          (steady h ds sid cols (if ds.hasHeaderRow then below else rootRow :: below) false 0) := by
  obtain ⟨k, hk⟩ : ∃ k, ds.batchSize.toNat = k + 1 := ⟨ds.batchSize.toNat - 1, by omega⟩
  have hi : ∀ f, RunWorkerInternal h f tx (onRootRow ds sid rootRow below)
      = RunWorkerInternal h f tx
          (steady h ds sid cols (if ds.hasHeaderRow then below else rootRow :: below) false 0) := by
    intro f
    have hr := first_read_eq h ds sid rootRow below cols hcols hne
    have b1 : (onRootRow ds sid rootRow below).batchSize = ds.batchSize := rfl
    have b2 : (steady h ds sid cols (if ds.hasHeaderRow then below else rootRow :: below)
        false 0).batchSize = ds.batchSize := rfl
    have d1 : (onRootRow ds sid rootRow below).isDone = false := rfl
    have d2 : (steady h ds sid cols (if ds.hasHeaderRow then below else rootRow :: below)
        false 0).isDone = false := rfl
    unfold RunWorkerInternal
    rw [d1, d2]
    simp only [Bool.false_eq_true, if_false]
    rw [b1, b2, hk, readBatch, readBatch, hr]
  rw [RunWorker, RunWorker, hi]

theorem header_only_cycle (h : Helpers) (ds : DataSource) (sid : String)
    (rootRow : List String) (cols : List String)
    (hh : ds.hasHeaderRow = true) (hcols : columnsOf h ds rootRow = .ok cols)
    (hbs : 1 ≤ ds.batchSize) (tx : Tx) :
    ∃ rs1, rs1.isDone = true ∧
      RunWorkerInternal h .ok tx (onRootRow ds sid rootRow [])
        = (rs1, { offsetCell := some 0, queue := tx.queue }, none) := by
  obtain ⟨k, hk⟩ : ∃ k, ds.batchSize.toNat = k + 1 := ⟨ds.batchSize.toNat - 1, by omega⟩
  unfold columnsOf at hcols
  rw [hh] at hcols
  simp only [if_true] at hcols
  have hr : readRecordFromFileWithInitialize h (onRootRow ds sid rootRow [])
      = ({ onRootRow ds sid rootRow [] with rows := { token := none, rest := [] }, isDone := true },
         .error .endOfStream) := by
    simp [readRecordFromFileWithInitialize, onRootRow, DataSource.Get, hh, hcols, Rows.Columns,
      Rows.Next]
  have b1 : (onRootRow ds sid rootRow []).batchSize = ds.batchSize := rfl
  have d1 : (onRootRow ds sid rootRow []).isDone = false := rfl
  refine ⟨{ onRootRow ds sid rootRow [] with
    rows := { token := none, rest := [] }, isDone := true, offset := 0 + ((0 : Nat) : Int) }, rfl, ?_⟩
  unfold RunWorkerInternal
  rw [d1]
  simp only [Bool.false_eq_true, if_false]
  rw [b1, hk, readBatch, hr]
  have hz : addInt 0 0 = 0 := by decide
  simp [pushBatch, saveOffset, ValueState.Set, CycleFaults.ok, onRootRow, DataSource.Get, hz]

/-- C1: in a run without faults, started on empty storage over a grid that
holds the root cell's row, with `batchSize` at least 1, reads that raise no
error and an exhausted cursor that reads as an empty row, the producer loop
returns, and the queue it has committed holds, in order, the records of the
grid rows read one by one from the root row on (from the row after it when
there is a header row), stopping before the first fully empty row or at the
end of the grid, followed by the end-of-stream element; the column names are
derived once, from the root row, and every record carries them; the j-th
record has the id made of the StreamID and `j`, and the saved offset is the
number of records, both held in a 64-bit Go `int`: for a grid of fewer than
2^63 rows they are `j` and the number of records themselves. -/
theorem RunWorker_fault_free (h : Helpers) (ds : DataSource) (sid : String)
    (grid : List (List String)) (rootRow : List String) (below : List (List String))
    (cols : List String) (vals : List (List Value)) (v0 : List Value)
    (hbs : 1 ≤ ds.batchSize)
    (hroot : grid.drop ds.verticalOffset = rootRow :: below)
    (hcols : columnsOf h ds rootRow = .ok cols)
    (hrows : tableRows h ds.horizontalOffset cols (temporalOf h ds cols)
      (if ds.hasHeaderRow then below else rootRow :: below) = .ok vals)
    (hend : h.extractRow ds.horizontalOffset cols (temporalOf h ds cols) [] = .ok v0)
    (hv0 : isRowEmpty v0 = true)
    (fuel : Nat) (hfuel : vals.length + 3 ≤ fuel) :
    (RunWorker h (.sheet grid) fuel .ok .resync ⟨none, []⟩ (ds.Get sid)).outcome = .returned ∧
    (RunWorker h (.sheet grid) fuel .ok .resync ⟨none, []⟩ (ds.Get sid)).store
      = { offsetCell := some (wrapInt vals.length),
          queue := ((recordsFrom cols sid 0 vals).map asGoInt).map QueueElement.record ++
            [.endOfStream] } ∧
    (grid.length < 9223372036854775808 →
      (RunWorker h (.sheet grid) fuel .ok .resync ⟨none, []⟩ (ds.Get sid)).store
        = { offsetCell := some (vals.length : Int),
            queue := (recordsFrom cols sid 0 vals).map QueueElement.record ++ [.endOfStream] }) ∧
    (∀ r ∈ recordsFrom cols sid 0 vals,
      r.fields = cols ∧ (asGoInt r).fields = cols ∧ (asGoInt r).data = r.data) := by
  have hfields : ∀ (o : Int) (vs : List (List Value)), ∀ r ∈ recordsFrom cols sid o vs,
      r.fields = cols := by
    intro o vs
    induction vs generalizing o with
    | nil => simp [recordsFrom]
    | cons v vs ih =>
      intro r hr
      simp only [recordsFrom, List.mem_cons] at hr
      rcases hr with rfl | hr
      · rfl
      · exact ih _ r hr
  have hw0 : wrapInt 0 = 0 := by decide
  have hsmall : grid.length < 9223372036854775808 →
      wrapInt vals.length = vals.length ∧
      (recordsFrom cols sid 0 vals).map asGoInt = recordsFrom cols sid 0 vals := by
    intro hgrid
    have h1 := tableRows_length_le h _ _ _ _ vals hrows
    have h2 : (grid.drop ds.verticalOffset).length ≤ grid.length := by
      rw [List.length_drop]; omega
    rw [hroot, List.length_cons] at h2
    have h3 : (if ds.hasHeaderRow then below else rootRow :: below).length
        ≤ below.length + 1 := by
      split <;> simp
    exact ⟨wrapInt_of_inRange _ (by omega) (by omega),
      recordsFrom_asGoInt cols sid 0 vals (by omega) (by omega)⟩
  have hstore : (RunWorker h (.sheet grid) fuel .ok .resync ⟨none, []⟩ (ds.Get sid)).outcome
        = .returned ∧
      (RunWorker h (.sheet grid) fuel .ok .resync ⟨none, []⟩ (ds.Get sid)).store
        = { offsetCell := some (wrapInt vals.length),
            queue := ((recordsFrom cols sid 0 vals).map asGoInt).map QueueElement.record ++
              [.endOfStream] } := by
    obtain ⟨f1, rfl⟩ : ∃ f1, fuel = f1 + 1 + 1 := ⟨fuel - 2, by omega⟩
    rw [resync_first_start h ds sid grid rootRow below hroot (f1 + 1) []]
    by_cases hearly : ds.hasHeaderRow = true ∧ below = []
    · obtain ⟨hh, hb⟩ := hearly
      subst hb
      rw [hh] at hrows
      simp only [if_true] at hrows
      have hvals := tableRows_nil_vals h _ _ _ _ hrows
      subst hvals
      obtain ⟨rs1, hd1, e1⟩ := header_only_cycle h ds sid rootRow cols hh hcols hbs ⟨none, []⟩
      obtain ⟨f2, rfl⟩ : ∃ f2, f1 = f2 + 1 := ⟨f1 - 1, by simp at hfuel; omega⟩
      rw [RunWorker]
      simp only [Script.ok, List.headD_nil, List.tail_nil]
      rw [e1]
      simp only [Option.map_none', reduceCtorEq, if_false, Option.isSome_none,
        Bool.false_eq_true, CycleFaults.ok]
      have := run_done h (.sheet grid) f2 { offsetCell := some 0, queue := [] } rs1 hd1
      simp only [Script.ok] at this
      rw [this]
      simp [recordsFrom, hw0]
    · have hne : ds.hasHeaderRow = true → below ≠ [] := fun hh hb => hearly ⟨hh, hb⟩
      rw [first_cycle_eq h ds sid (.sheet grid) rootRow below cols hcols hne hbs f1 .ok
        ⟨none, []⟩]
      obtain ⟨r1, r2⟩ := run_steady h ds sid cols v0 (.sheet grid) hend hv0 hbs vals.length
        vals (if ds.hasHeaderRow then below else rootRow :: below) 0 ⟨none, []⟩ (f1 + 1)
        (le_refl _) hrows (by omega)
      rw [hw0] at r1 r2
      refine ⟨r1, ?_⟩
      rw [r2]
      simp
  refine ⟨hstore.1, hstore.2, fun hgrid => ?_, fun r hr => ⟨hfields 0 vals r hr, ?_, rfl⟩⟩
  · obtain ⟨e1, e2⟩ := hsmall hgrid
    rw [hstore.2, e1, e2]
  · exact hfields 0 vals r hr

/-- The sheet `peopleGrid` read from "A1" with its header row in batches of
two: the three data rows, then the end of the stream. -/
theorem RunWorker_fault_free_witness :
    (RunWorker specHelpers (.sheet peopleGrid) 6 .ok .resync ⟨none, []⟩
        ((headerSource 2).Get "s")).store
      = { offsetCell := some 3,
          queue := [personRecord "Jan" 20 0, personRecord "Kuba" 21 1,
                    personRecord "Wojtek" 21 2, .endOfStream] } :=
  (RunWorker_fault_free specHelpers (headerSource 2) "s" peopleGrid ["name", "age"]
    [["Jan", "20"], ["Kuba", "21"], ["Wojtek", "21"]] ["t.name", "t.age"]
    [[.str "Jan", .int 20], [.str "Kuba", .int 21], [.str "Wojtek", .int 21]]
    [.null, .null] (by decide) rfl rfl rfl rfl rfl 6 (by decide)).2.2.1 (by decide)

/-! ## Resuming and retrying -/

/-- C2 fails on the code. Over `peopleGrid` with its header row and batches
of one, an uninterrupted run commits Jan, Kuba, Wojtek with the ids 0, 1, 2.
When the second commit-cycle meets a storage error, the loop resyncs from
the persisted offset 1: the header row is not consumed again (the guard asks
for offset 0), the skipped read takes the header row, and the resumed loop
pushes Jan again with id 1, then Kuba with id 2 and Wojtek with id 3.
Without a header row, a worker started afresh on the persisted offset 1
never derives the column names and returns at once, pushing nothing. -/
theorem resume_differs_from_uninterrupted :
    (RunWorker specHelpers (.sheet peopleGrid) 10 .ok .resync ⟨none, []⟩
        ((headerSource 1).Get "s")).store
      = { offsetCell := some 3,
          queue := [personRecord "Jan" 20 0, personRecord "Kuba" 21 1,
                    personRecord "Wojtek" 21 2, .endOfStream] } ∧
    (RunWorker specHelpers (.sheet peopleGrid) 10
        { loads := [], cycles := [.ok, { push := [some (.msg "storage error")], save := none,
                                         commit := none }] }
        .resync ⟨none, []⟩ ((headerSource 1).Get "s")).store
      = { offsetCell := some 4,
          queue := [personRecord "Jan" 20 0, personRecord "Jan" 20 1, personRecord "Kuba" 21 2,
                    personRecord "Wojtek" 21 3, .endOfStream] } ∧
    (RunWorker specHelpers (.sheet [["Jan", "20"], ["Kuba", "21"]]) 10 .ok .resync
        ⟨some 1, []⟩ ((plainSource 1).Get "s")).outcome = .returned ∧
    (RunWorker specHelpers (.sheet [["Jan", "20"], ["Kuba", "21"]]) 10 .ok .resync
        ⟨some 1, []⟩ ((plainSource 1).Get "s")).store.queue = [] := by
  decide

/-- C3 fails on the code. Over `peopleGrid` with batches of two, the first
commit-cycle reads Jan and Kuba and its second push is refused with
`ErrNewTransactionRequired`; the retried commit-cycle, run on the reader
state the aborted one left, pushes Wojtek with id 0; the run returns having
committed that record alone: Jan and Kuba are skipped. -/
theorem retry_after_conflict_skips_rows :
    (RunWorkerInternal specHelpers
        { push := [none, some .newTransactionRequired], save := none, commit := none }
        ⟨none, []⟩ (freshReader 2)).2
      = (⟨none, [personRecord "Jan" 20 0]⟩,
         some (.wrap "couldn't push excel record with index 1 in batch to output record queue"
           .newTransactionRequired)) ∧
    (RunWorkerInternal specHelpers .ok ⟨none, []⟩
        (RunWorkerInternal specHelpers
          { push := [none, some .newTransactionRequired], save := none, commit := none }
          ⟨none, []⟩ (freshReader 2)).1).2
      = (⟨some 1, [personRecord "Wojtek" 21 0]⟩, none) ∧
    (RunWorker specHelpers (.sheet peopleGrid) 10
        { loads := [], cycles := [{ push := [none, some .newTransactionRequired], save := none,
                                    commit := none }] }
        .resync ⟨none, []⟩ ((headerSource 2).Get "s")).outcome = .returned ∧
    (RunWorker specHelpers (.sheet peopleGrid) 10
        { loads := [], cycles := [{ push := [none, some .newTransactionRequired], save := none,
                                    commit := none }] }
        .resync ⟨none, []⟩ ((headerSource 2).Get "s")).store
      = { offsetCell := some 1, queue := [personRecord "Wojtek" 21 0, .endOfStream] } := by
  decide

/-- C4 fails on the code. A run over `peopleGrid` interrupted after its
first commit leaves the offset 1 and one record in the store; a worker
started afresh on that store has no column names (the guard asks for offset
0), its skipped read meets an empty row, and `RunWorker` returns from the
resync phase: the store is as it was and holds no end-of-stream element. -/
theorem RunWorker_returns_without_endOfStream :
    (RunWorker specHelpers (.sheet peopleGrid) 2 .ok .resync ⟨none, []⟩
        ((headerSource 1).Get "s")).store
      = { offsetCell := some 1, queue := [personRecord "Jan" 20 0] } ∧
    (RunWorker specHelpers (.sheet peopleGrid) 1 .ok .resync
        ⟨some 1, [personRecord "Jan" 20 0]⟩ ((headerSource 1).Get "s")).outcome = .returned ∧
    (RunWorker specHelpers (.sheet peopleGrid) 1 .ok .resync
        ⟨some 1, [personRecord "Jan" 20 0]⟩ ((headerSource 1).Get "s")).store
      = { offsetCell := some 1, queue := [personRecord "Jan" 20 0] } ∧
    QueueElement.endOfStream ∉
      (RunWorker specHelpers (.sheet peopleGrid) 1 .ok .resync
        ⟨some 1, [personRecord "Jan" 20 0]⟩ ((headerSource 1).Get "s")).store.queue := by
  decide

/-- C5 fails on the code. Over `peopleGrid` with batches of two, the commit
of the first commit-cycle fails after the in-memory offset has moved to 2;
the retried commit-cycle pushes Wojtek with id 2 and saves the offset 3: the
run returns with the persisted offset 3 and one record committed. -/
theorem offset_exceeds_committed_records :
    (RunWorker specHelpers (.sheet peopleGrid) 10
        { loads := [], cycles := [{ push := [], save := none,
                                    commit := some (.msg "transaction conflict") }] }
        .resync ⟨none, []⟩ ((headerSource 2).Get "s")).outcome = .returned ∧
    (RunWorker specHelpers (.sheet peopleGrid) 10
        { loads := [], cycles := [{ push := [], save := none,
                                    commit := some (.msg "transaction conflict") }] }
        .resync ⟨none, []⟩ ((headerSource 2).Get "s")).store
      = { offsetCell := some 3, queue := [personRecord "Wojtek" 21 2, .endOfStream] } ∧
    recordCount (RunWorker specHelpers (.sheet peopleGrid) 10
        { loads := [], cycles := [{ push := [], save := none,
                                    commit := some (.msg "transaction conflict") }] }
        .resync ⟨none, []⟩ ((headerSource 2).Get "s")).store.queue = 1 := by
  decide

/-! ## What the resync phase keeps -/

theorem extractAndAdvance_memory (h : Helpers) (rs : RecordStream) (cur : List String) :
    (rs.isDone = true → (extractAndAdvance h rs cur).1.isDone = true) ∧
    (extractAndAdvance h rs cur).1.first = rs.first ∧
    (extractAndAdvance h rs cur).1.columnNames = rs.columnNames ∧
    (extractAndAdvance h rs cur).1.timeColumns = rs.timeColumns := by
  unfold extractAndAdvance
  split
  · simp
  · split
    · simp
    · split <;> simp

theorem read_isDone (h : Helpers) (rs : RecordStream) (hd : rs.isDone = true) :
    (readRecordFromFileWithInitialize h rs).1.isDone = true := by
  unfold readRecordFromFileWithInitialize
  simp only
  split
  · split
    · split
      · exact hd
      · split
        · rfl
        · exact (extractAndAdvance_memory h _ _).1 hd
    · split
      · exact hd
      · exact (extractAndAdvance_memory h _ _).1 hd
  · exact (extractAndAdvance_memory h _ _).1 hd

theorem read_schema (h : Helpers) (rs : RecordStream) (ho : rs.offset ≠ 0) :
    (readRecordFromFileWithInitialize h rs).1.first = rs.first ∧
    (readRecordFromFileWithInitialize h rs).1.columnNames = rs.columnNames ∧
    (readRecordFromFileWithInitialize h rs).1.timeColumns = rs.timeColumns := by
  unfold readRecordFromFileWithInitialize
  simp only
  rw [if_neg (by simp [ho])]
  exact (extractAndAdvance_memory h rs rs.rows.Columns).2

theorem moveIterator_isDone (h : Helpers) (n : Nat) (rs : RecordStream)
    (hd : rs.isDone = true) : (moveIterator h n rs).1.isDone = true := by
  induction n generalizing rs with
  | zero => exact hd
  | succ n ih =>
    rw [moveIterator]
    have hr := read_isDone h rs hd
    rcases hres : readRecordFromFileWithInitialize h rs with ⟨rs1, e | row⟩
    · rw [hres] at hr; exact hr
    · rw [hres] at hr; exact ih rs1 hr

theorem moveIterator_schema (h : Helpers) (n : Nat) (rs : RecordStream) (ho : rs.offset ≠ 0) :
    (moveIterator h n rs).1.first = rs.first ∧
    (moveIterator h n rs).1.columnNames = rs.columnNames ∧
    (moveIterator h n rs).1.timeColumns = rs.timeColumns := by
  induction n generalizing rs with
  | zero => exact ⟨rfl, rfl, rfl⟩
  | succ n ih =>
    rw [moveIterator]
    obtain ⟨s1, s2, s3⟩ := read_schema h rs ho
    have ko := (read_keeps h rs).1
    rcases hres : readRecordFromFileWithInitialize h rs with ⟨rs1, e | row⟩
    · rw [hres] at s1 s2 s3; exact ⟨s1, s2, s3⟩
    · rw [hres] at s1 s2 s3 ko
      simp only at s1 s2 s3 ko
      obtain ⟨t1, t2, t3⟩ := ih rs1 (by rw [ko]; exact ho)
      exact ⟨t1.trans s1, t2.trans s2, t3.trans s3⟩

theorem loadOffset_memory (fault : Option Err) (tx : Tx) (rs : RecordStream) :
    (loadOffset fault tx rs).1.isDone = rs.isDone ∧
    (loadOffset fault tx rs).1.first = rs.first ∧
    (loadOffset fault tx rs).1.columnNames = rs.columnNames ∧
    (loadOffset fault tx rs).1.timeColumns = rs.timeColumns := by
  unfold loadOffset
  split <;> simp

/-- An exhausted flag set in memory survives the resync phase, whatever the
storage, the source and the persisted offset are. -/
theorem resync_keeps_isDone (h : Helpers) (src : Source) (sc : Script) (store : Tx)
    (rs : RecordStream) (hd : rs.isDone = true) :
    (RunWorker h src 1 sc .resync store rs).rs.isDone = true := by
  have hl := (loadOffset_memory (sc.loads.headD none) store rs).1
  rw [RunWorker]
  rcases hload : loadOffset (sc.loads.headD none) store rs with ⟨rs1, _ | e⟩
  · rw [hload] at hl
    simp only at hl ⊢
    have hd1 : rs1.isDone = true := hl.trans hd
    cases src with
    | openFails => exact hd1
    | noSheet => exact hd1
    | sheet grid =>
      simp only
      cases hskip : skipRows (rs1.verticalOffset + 1) { token := none, rest := grid } with
      | none => exact hd1
      | some rows =>
        simp only
        have hm := moveIterator_isDone h rs1.offset.toNat { rs1 with rows := rows } hd1
        rcases hmove : moveIterator h rs1.offset.toNat { rs1 with rows := rows }
          with ⟨rs2, _ | e⟩
        · rw [hmove] at hm
          simpa [RunWorker] using hm
        · rw [hmove] at hm
          cases e <;> exact hm
  · rw [hload] at hl
    exact hl.trans hd

/-- With a persisted offset other than 0, the resync phase leaves the
first-row flag, the column names and the temporal bitmap as they were in
memory: nothing rebuilds them. -/
theorem resync_keeps_schema (h : Helpers) (src : Source) (sc : Script)
    (q : List QueueElement) (k : Int) (rs : RecordStream)
    (hload : sc.loads.headD none = none) (hk : k ≠ 0) :
    (RunWorker h src 1 sc .resync ⟨some k, q⟩ rs).rs.first = rs.first ∧
    (RunWorker h src 1 sc .resync ⟨some k, q⟩ rs).rs.columnNames = rs.columnNames ∧
    (RunWorker h src 1 sc .resync ⟨some k, q⟩ rs).rs.timeColumns = rs.timeColumns := by
  rw [RunWorker, hload]
  simp only [loadOffset, ValueState.Get]
  cases src with
  | openFails => exact ⟨rfl, rfl, rfl⟩
  | noSheet => exact ⟨rfl, rfl, rfl⟩
  | sheet grid =>
    simp only
    cases hskip : skipRows (rs.verticalOffset + 1) { token := none, rest := grid } with
    | none => exact ⟨rfl, rfl, rfl⟩
    | some rows =>
      simp only
      have hm := moveIterator_schema h k.toNat { rs with offset := k, rows := rows } hk
      rcases hmove : moveIterator h k.toNat { rs with offset := k, rows := rows }
        with ⟨rs2, _ | e⟩
      · rw [hmove] at hm
        simpa [RunWorker] using hm
      · rw [hmove] at hm
        cases e <;> exact hm

/-- C11 fails on the code. `readerAfterFirstCommit` and
`readerAfterFailedCycle` are two reader states of one worker over
`plainGrid`, with the same configuration and the same persisted offset 2;
the second has read Wojtek and set `isDone` before its commit-cycle failed.
After the resync phase both have the offset 2 and the cursor on Wojtek, but
`isDone` is false in the first and still true in the second; a worker
started afresh on the same store has `first` true, no column names and the
cursor on Jan. The run whose second commit-cycle failed therefore pushes the
end of the stream right after its resync and returns without Wojtek, which
the run without faults commits. -/
theorem resync_depends_on_reader_memory :
    (RunWorker specHelpers (.sheet plainGrid) 2 .ok .resync ⟨none, []⟩
        ((plainSource 2).Get "s")).store = storeAfterFirstCommit ∧
    (RunWorker specHelpers (.sheet plainGrid) 3 storageErrorInSecondCycle .resync ⟨none, []⟩
        ((plainSource 2).Get "s")).store = storeAfterFirstCommit ∧
    readerAfterFailedCycle
      = { readerAfterFirstCommit with isDone := true, rows := { token := none, rest := [] } } ∧
    (RunWorker specHelpers (.sheet plainGrid) 1 .ok .resync storeAfterFirstCommit
        readerAfterFirstCommit).rs
      = { readerAfterFirstCommit with rows := { token := some ["Wojtek", "21"], rest := [] } } ∧
    (RunWorker specHelpers (.sheet plainGrid) 1 .ok .resync storeAfterFirstCommit
        readerAfterFirstCommit).rs.isDone = false ∧
    (RunWorker specHelpers (.sheet plainGrid) 1 .ok .resync storeAfterFirstCommit
        readerAfterFailedCycle).rs
      = { readerAfterFirstCommit with
          isDone := true
          rows := { token := some ["Wojtek", "21"], rest := [] } } ∧
    (RunWorker specHelpers (.sheet plainGrid) 1 .ok .resync storeAfterFirstCommit
        ((plainSource 2).Get "s")).rs
      = { (plainSource 2).Get "s" with
          isDone := true
          offset := 2
          rows := { token := some ["Jan", "20"], rest := [["Kuba", "21"], ["Wojtek", "21"]] } } ∧
    (RunWorker specHelpers (.sheet plainGrid) 10 storageErrorInSecondCycle .resync ⟨none, []⟩
        ((plainSource 2).Get "s")).outcome = .returned ∧
    (RunWorker specHelpers (.sheet plainGrid) 10 storageErrorInSecondCycle .resync ⟨none, []⟩
        ((plainSource 2).Get "s")).store
      = { offsetCell := some 2,
          queue := [plainRecord "Jan" 20 0, plainRecord "Kuba" 21 1, .endOfStream] } ∧
    (RunWorker specHelpers (.sheet plainGrid) 10 .ok .resync ⟨none, []⟩
        ((plainSource 2).Get "s")).store
      = { offsetCell := some 3,
          queue := [plainRecord "Jan" 20 0, plainRecord "Kuba" 21 1, plainRecord "Wojtek" 21 2,
                    .endOfStream] } := by
  decide

end Excel
